import Mathlib

/-!
Verification development for `convert_location.py`, a single-file pipeline that
streams a Google-Timeline JSON export, flattens each record, assembles a polars
DataFrame, derives datetime columns from the string timestamp columns, and
writes a parquet file.

Modelling conventions (a shallow embedding of the Python script):

* JSON values produced by the `ijson` streaming decoder are modelled by the
  inductive type `Json`.  JSON numbers are modelled as exact rationals
  (`ijson` yields `decimal.Decimal`, and the script only converts them with
  `float(...)`; none of the verified claims depends on IEEE-754 rounding, so
  Python floats are likewise modelled as exact rationals).
* A JSON object is a list of key/value pairs as emitted by the parser.  Keys
  of a parsed object are distinct, and lookups use the first match.
* Fallible Python evaluation (`TypeError`, `ValueError`, `AttributeError`,
  `KeyError`, ...) is modelled with `Except String`; the message text is
  irrelevant to every claim.
* `float(...)` on a string is modelled by `pyFloatOfString`.  The unmodelled
  corners (`inf`/`nan` literals and underscore digit separators) are noted at
  the definition; no claim exercises them.
-/

namespace LH

/-- JSON values as decoded by `ijson` (numbers are `decimal.Decimal`,
modelled exactly as rationals; JSON `null` decodes to Python `None`). -/
inductive Json where
  | null : Json
  | bool (b : Bool) : Json
  | num (q : ℚ) : Json
  | str (s : String) : Json
  | arr (l : List Json) : Json
  | obj (l : List (String × Json)) : Json

/-- Values stored into the `processed` dict by the script: either a JSON value
copied verbatim (Python `None` is `Json.null`), a Python float produced by
`float(...)` (modelled exactly as a rational), or a parsed datetime produced by
the `str.to_datetime` step (kept abstractly as its validated source text). -/
inductive Val where
  | vjson (j : Json) : Val
  | vfloat (q : ℚ) : Val
  | vdt (s : String) : Val

/-- A flattened row: the `processed` Python dict, in insertion order. -/
abbrev Row := List (String × Val)

/-- Python `==` between a JSON value and a string key (used by `in` on lists):
only a string equal to the key compares true. -/
def strElemEq (k : String) : Json → Bool
  | .str s => s = k
  | _ => false

/-- Python truthiness of a decoded JSON value (`bool(x)`). -/
def truthy : Json → Bool
  | .null => false
  | .bool b => b
  | .num q => decide (q ≠ 0)
  | .str s => !(s == "")
  | .arr l => !l.isEmpty
  | .obj l => !l.isEmpty

/-- Python `k in v` for the decoded values: dict key test, list membership,
substring test on strings; `TypeError` otherwise. -/
def jMember (k : String) : Json → Except String Bool
  | .obj l => .ok (List.lookup k l).isSome
  | .arr l => .ok (l.any (strElemEq k))
  | .str s => .ok ((s.splitOn k).length > 1)
  | _ => .error "TypeError: argument of type is not iterable"

/-- Python `v[k]` with a string subscript: dict lookup (`KeyError` if absent),
`TypeError` on every other decoded value. -/
def jIndex (v : Json) (k : String) : Except String Json :=
  match v with
  | .obj l =>
    match List.lookup k l with
    | some x => .ok x
    | none => .error "KeyError"
  | _ => .error "TypeError: subscript"

/-- Python `v[0]`: first element of a list, first character of a string,
`IndexError` when empty, `TypeError` otherwise. -/
def jIndexZero (v : Json) : Except String Json :=
  match v with
  | .arr (a :: _) => .ok a
  | .arr [] => .error "IndexError"
  | .str s =>
    match s.data with
    | c :: _ => .ok (.str (String.mk [c]))
    | [] => .error "IndexError: string index out of range"
  | _ => .error "TypeError: not subscriptable"

/-- Python `v.get(k)`: total on dicts (default `None`), `AttributeError` on
every other decoded value. -/
def pyGet (v : Json) (k : String) : Except String Json :=
  match v with
  | .obj l => .ok ((List.lookup k l).getD .null)
  | _ => .error "AttributeError: no attribute get"

/-- Python `v.get(k, d)` with an explicit default. -/
def pyGetD (v : Json) (k : String) (d : Json) : Except String Json :=
  match v with
  | .obj l => .ok ((List.lookup k l).getD d)
  | _ => .error "AttributeError: no attribute get"

/-- Dict assignment `processed[k] = x`: overwrite in place when the key exists,
append otherwise (Python dict insertion-order semantics). -/
def rset (r : Row) (k : String) (v : Val) : Row :=
  if r.any (fun p => p.1 = k) then
    r.map (fun p => if p.1 = k then (k, v) else p)
  else
    r ++ [(k, v)]

/-- Remove every binding of key `k` from a row. -/
def rdel (r : Row) (k : String) : Row :=
  r.filter (fun p => p.1 ≠ k)

/-- Digits of a string prefix: `span Char.isDigit`. -/
def takeDigits (cs : List Char) : List Char × List Char :=
  (cs.takeWhile Char.isDigit, cs.dropWhile Char.isDigit)

/-- Numeric value of a digit string. -/
def digitsToNat (cs : List Char) : ℕ :=
  cs.foldl (fun n c => n * 10 + (c.toNat - 48)) 0

/-- Mantissa/exponent assembly for `pyFloatOfString`: the exact rational
`±(digits of ip.fp) × 10^(±exponent)`, built with `mkRat` so that concrete
values evaluate by kernel reduction. -/
def ratOfParts (neg : Bool) (ip fp : List Char) (eneg : Bool) (ep : List Char) : ℚ :=
  let m : ℕ := digitsToNat (ip ++ fp)
  let e : ℕ := digitsToNat ep
  let num : ℤ := if neg then -(Int.ofNat m) else Int.ofNat m
  if eneg then mkRat num (10 ^ (fp.length + e))
  else mkRat (num * Int.ofNat (10 ^ e)) (10 ^ fp.length)

/-- Exponent-part helper: parses `[eE][+-]?digits` followed by end of input. -/
def parseExpPart (cs : List Char) : Option (Bool × List Char) :=
  match cs with
  | [] => some (false, [])
  | c :: rest =>
    if c = 'e' ∨ c = 'E' then
      let (eneg, rest1) :=
        match rest with
        | '+' :: r => (false, r)
        | '-' :: r => (true, r)
        | r => (false, r)
      let (ep, rest2) := takeDigits rest1
      if ep.isEmpty ∨ ¬rest2.isEmpty then none else some (eneg, ep)
    else none

/-- Python `float(s)` on a string, modelled exactly as a rational.

Faithful to CPython for sign, integer/fraction digits and decimal exponents
(after whitespace stripping).  Not modelled, and exercised by no claim:
`inf`/`infinity`/`nan` literals and underscore digit separators (both are
rejected here). -/
def pyFloatOfString (s : String) : Option ℚ :=
  let cs := ((s.data.dropWhile Char.isWhitespace).reverse.dropWhile Char.isWhitespace).reverse
  let (neg, cs1) :=
    match cs with
    | '+' :: r => (false, r)
    | '-' :: r => (true, r)
    | r => (false, r)
  let (ip, cs2) := takeDigits cs1
  let (fp, cs3) :=
    match cs2 with
    | '.' :: r => takeDigits r
    | r => ([], r)
  if (ip ++ fp).isEmpty then none
  else
    match parseExpPart cs3 with
    | some (eneg, ep) => some (ratOfParts neg ip fp eneg ep)
    | none => none

/-- Python `float(x)` on a decoded JSON value: numbers (Decimal) convert
exactly, strings go through `pyFloatOfString`, booleans convert to 0/1,
everything else (`None`, lists, dicts) raises. -/
def pyFloatOfJson : Json → Option ℚ
  | .num q => some q
  | .str s => pyFloatOfString s
  | .bool b => some (if b then 1 else 0)
  | _ => none

/-- `float(x)` as a fallible computation (`ValueError`/`TypeError` on failure). -/
def pyFloat (x : Json) : Except String ℚ :=
  match pyFloatOfJson x with
  | some q => .ok q
  | none => .error "ValueError: could not convert to float"

/-- Character class of the regex `[-\d.]`. -/
def geoChar (c : Char) : Bool :=
  c.isDigit || c = '-' || c = '.'

/-- `re.match(r'geo:([-\d.]+),([-\d.]+)', s)` on the character list.

Because `,` is not in the class `[-\d.]`, the regex engine cannot backtrack:
the match succeeds exactly when the input starts with `geo:`, a non-empty
maximal run of class characters, a comma, and another non-empty run; the two
captured groups are those two maximal runs.  The match is anchored only at the
start (`re.match`), so trailing characters are ignored. -/
def geoMatchList (cs : List Char) : Option (List Char × List Char) :=
  match cs with
  | 'g' :: 'e' :: 'o' :: ':' :: rest =>
    let g1 := rest.takeWhile geoChar
    if g1.isEmpty then none
    else
      match rest.dropWhile geoChar with
      | ',' :: rest2 =>
        let g2 := rest2.takeWhile geoChar
        if g2.isEmpty then none else some (g1, g2)
      | _ => none
  | _ => none

/-- `re.match(r'geo:([-\d.]+),([-\d.]+)', s)`, returning the captured groups. -/
def geoMatch (s : String) : Option (String × String) :=
  (geoMatchList s.data).map (fun p => (String.mk p.1, String.mk p.2))

/-- `if k in d: processed[outK] = d[k]` — verbatim copy of an optional field. -/
def copyStep (d : Json) (k outK : String) (r : Row) : Except String Row := do
  let h ← jMember k d
  if h then do
    let x ← jIndex d k
    pure (rset r outK (.vjson x))
  else pure r

/-- `if k in d: processed[outK] = float(d[k])` — float-coerced copy. -/
def floatStep (d : Json) (k outK : String) (r : Row) : Except String Row := do
  let h ← jMember k d
  if h then do
    let x ← jIndex d k
    let q ← pyFloat x
    pure (rset r outK (.vfloat q))
  else pure r

/-- The geo-extraction idiom: `re.match` on the value (a `TypeError` unless it
is a string), and on success `float` of each captured group assigned to the
two given keys; no match assigns nothing. -/
def geoAssign (v : Json) (k1 k2 : String) (r : Row) : Except String Row :=
  match v with
  | .str s =>
    match geoMatch s with
    | some (g1, g2) => do
      let a ← pyFloat (.str g1)
      let b ← pyFloat (.str g2)
      pure (rset (rset r k1 (.vfloat a)) k2 (.vfloat b))
    | none => pure r
  | _ => .error "TypeError: expected string or bytes-like object"

/-- `if k in d: <geo-extract d[k] into k1, k2>`. -/
def geoStep (d : Json) (k k1 k2 : String) (r : Row) : Except String Row := do
  let h ← jMember k d
  if h then do
    let v ← jIndex d k
    geoAssign v k1 k2 r
  else pure r

/-- Lines 23-44 of the script: the `visit.topCandidate` block. -/
def visitBlock (entry : Json) (r : Row) : Except String Row := do
  let hv ← jMember "visit" entry
  if hv then do
    let v ← jIndex entry "visit"
    let htc ← jMember "topCandidate" v
    if htc then do
      let tc ← jIndex v "topCandidate"
      let r1 ← copyStep tc "semanticType" "semanticType" r
      let r2 ← floatStep tc "probability" "probability" r1
      let r3 ← copyStep tc "placeID" "placeID" r2
      geoStep tc "placeLocation" "latitude" "longitude" r3
    else pure r
  else pure r

/-- Lines 47-74 of the script: the `activity` block. -/
def activityBlock (entry : Json) (r : Row) : Except String Row := do
  let ha ← jMember "activity" entry
  if ha then do
    let act ← jIndex entry "activity"
    let r1 ← geoStep act "start" "start_lat" "start_lng" r
    let r2 ← geoStep act "end" "end_lat" "end_lng" r1
    let r3 ← floatStep act "distanceMeters" "distance_meters" r2
    let htc ← jMember "topCandidate" act
    if htc then do
      let tc ← jIndex act "topCandidate"
      let r4 ← copyStep tc "type" "activity_type" r3
      floatStep tc "probability" "activity_probability" r4
    else pure r3
  else pure r

/-- Lines 77-88 of the script: the `activitySegment` block.  The first element
of a truthy `activities` value contributes `activityType` (via `.get`, so
`None` when absent) and `activityConfidence` (`float` of `.get('probability', 0)`);
then each of the four literal keys is copied verbatim under a `segment_` name. -/
def segActs (seg : Json) (r : Row) : Except String Row := do
  let hacts ← jMember "activities" seg
  if hacts then do
    let avs ← jIndex seg "activities"
    if truthy avs then do
      let a0 ← jIndexZero avs
      let t ← pyGet a0 "activityType"
      let p ← pyGetD a0 "probability" (.num 0)
      let q ← pyFloat p
      pure (rset (rset r "activityType" (.vjson t)) "activityConfidence" (.vfloat q))
    else pure r
  else pure r

def segmentBlock (entry : Json) (r : Row) : Except String Row := do
  let hs ← jMember "activitySegment" entry
  if hs then do
    let seg ← jIndex entry "activitySegment"
    let r1 ← segActs seg r
    let r2 ← copyStep seg "distance" "segment_distance" r1
    let r3 ← copyStep seg "duration" "segment_duration" r2
    let r4 ← copyStep seg "activityType" "segment_activityType" r3
    copyStep seg "confidence" "segment_confidence" r4
  else pure r

/-- `process_location_entry` (lines 15-90): the record flattener.  The row
always starts with the two `entry.get` timestamp fields; the three optional
blocks then extend it.  Any Python exception inside (a non-dict record, a
failing `float`, a non-string argument to `re.match`, ...) aborts the record
and propagates. -/
def process_location_entry (entry : Json) : Except String Row := do
  let s ← pyGet entry "startTime"
  let e ← pyGet entry "endTime"
  let r0 : Row := [("startTime", .vjson s), ("endTime", .vjson e)]
  let r1 ← visitBlock entry r0
  let r2 ← activityBlock entry r1
  segmentBlock entry r2

/-- The processing loop (lines 97-106): flatten every decoded entry in order;
the first exception aborts the loop and propagates to the handler. -/
def processAll (entries : List Json) : Except String (List Row) :=
  entries.mapM process_location_entry

/-- The polars DataFrame built by `pl.from_records`: the inferred column list
plus the original rows (a cell is read by key lookup; a key outside `cols`
is not part of the table). -/
structure DataFrame where
  cols : List String
  recs : List Row

/-- Keys of a flattened row, in insertion order. -/
def rowKeys (r : Row) : List String := r.map Prod.fst

/-- Merge a row's keys into the running schema, keeping first-appearance order. -/
def addKeys (acc : List String) (r : Row) : List String :=
  (rowKeys r).foldl (fun a k => if k ∈ a then a else a ++ [k]) acc

/-- `pl.from_records`' default schema-inference window (`infer_schema_length = 100`). -/
def inferWindow : ℕ := 100

/-- Union of the keys of the given rows, in first-appearance order. -/
def inferCols (rs : List Row) : List String := rs.foldl addKeys []

/-- `pl.from_records(processed_entries)` (line 109): the schema is inferred
from the first `infer_schema_length = 100` rows; a row key outside the
inferred schema is silently dropped, a schema key missing from a row reads
as null. -/
def from_records (rs : List Row) : DataFrame :=
  ⟨inferCols (rs.take inferWindow), rs⟩

/-- The cells of column `k`: `none` is a null (missing key). -/
def colCells (df : DataFrame) (k : String) : List (Option Val) :=
  df.recs.map (fun r => List.lookup k r)

/-- Exactly two digits, returning their value and the rest. -/
def digit2 (cs : List Char) : Option (ℕ × List Char) :=
  match cs with
  | a :: b :: r =>
    if a.isDigit && b.isDigit then some ((a.toNat - 48) * 10 + (b.toNat - 48), r) else none
  | _ => none

/-- Exactly four digits, returning their value and the rest. -/
def digit4 (cs : List Char) : Option (ℕ × List Char) :=
  match cs with
  | a :: b :: c :: d :: r =>
    if a.isDigit && b.isDigit && c.isDigit && d.isDigit then
      some (((a.toNat - 48) * 10 + (b.toNat - 48)) * 100 + (c.toNat - 48) * 10 + (d.toNat - 48), r)
    else none
  | _ => none

/-- A UTC-offset suffix: `HH:MM`, `HHMM` or `HH`. -/
def offsetOk (cs : List Char) : Bool :=
  match digit2 cs with
  | some (h, rest) =>
    h < 24 &&
      (match rest with
       | [] => true
       | ':' :: r2 => (digit2 r2).any (fun p => p.1 < 60 && p.2.isEmpty)
       | r2 => (digit2 r2).any (fun p => p.1 < 60 && p.2.isEmpty))
  | none => false

/-- An optional timezone suffix: nothing, `Z`, or a signed offset. -/
def tzOk (cs : List Char) : Bool :=
  match cs with
  | [] => true
  | ['Z'] => true
  | '+' :: r => offsetOk r
  | '-' :: r => offsetOk r
  | _ => false

/-- An optional fractional-second part followed by the timezone suffix. -/
def fracTzOk (cs : List Char) : Bool :=
  match cs with
  | '.' :: r =>
    let p := takeDigits r
    !p.1.isEmpty && tzOk p.2
  | r => tzOk r

/-- `HH:MM:SS` with range checks, then fraction/timezone. -/
def timeOk (cs : List Char) : Bool :=
  match digit2 cs with
  | some (h, ':' :: r1) =>
    (match digit2 r1 with
     | some (mi, ':' :: r2) =>
       (match digit2 r2 with
        | some (sec, r3) => h < 24 && mi < 60 && sec < 60 && fracTzOk r3
        | none => false)
     | _ => false)
  | _ => false

/-- Whether polars' inferred-format datetime parsing accepts the string.

Modelled after the ISO-8601 family that `str.to_datetime(format=None)`
infers: `YYYY-MM-DD`, optionally followed by `T` or a space and
`HH:MM:SS[.frac][Z|±offset]`, with basic range checks.  Every verified claim
depends only on whether parsing succeeds, never on the parsed value. -/
def isDatetimeString (s : String) : Bool :=
  match digit4 s.data with
  | some (_, '-' :: r1) =>
    (match digit2 r1 with
     | some (mo, '-' :: r2) =>
       (match digit2 r2 with
        | some (d, r3) =>
          1 ≤ mo && mo ≤ 12 && 1 ≤ d && d ≤ 31 &&
            (match r3 with
             | [] => true
             | 'T' :: r4 => timeOk r4
             | ' ' :: r4 => timeOk r4
             | _ => false)
        | none => false)
     | _ => false)
  | _ => false

/-- `pl.col(k).str.to_datetime(format=None)` applied to a column: polars'
default `strict=True` raises on the first non-null value that fails to parse,
so one malformed string fails the whole expression; null cells stay null.
(Each cell is parsed independently here, while polars infers a single format
from the first non-null value; no claim involves heterogeneous formats.) -/
def to_datetime_strict (cells : List (Option Val)) : Except String (List (Option Val)) :=
  cells.mapM (fun c =>
    match c with
    | none => .ok none
    | some (.vjson .null) => .ok none
    | some (.vjson (.str s)) =>
      if isDatetimeString s then .ok (some (.vdt s)) else
        .error "ComputeError: conversion from str to datetime failed"
    | some _ => .error "SchemaError: invalid series dtype")

/-- `df.with_columns` for one derived column: replaces an existing column of
the same name, else appends it; a null cell removes the key from the row. -/
def setColumn (df : DataFrame) (k : String) (cells : List (Option Val)) : DataFrame :=
  ⟨if df.cols.contains k then df.cols else df.cols ++ [k],
   (df.recs.zip cells).map (fun p =>
     match p.2 with
     | some v => rset p.1 k v
     | none => rdel p.1 k)⟩

/-- Lines 132-144 of the script: build the `startTime_dt` / `endTime_dt`
expressions for whichever source columns exist and apply them in one
`with_columns` call.  This step runs outside the `try` block, so an error
here is an uncaught exception. -/
def dtExprFor (df : DataFrame) (src dst : String) :
    Except String (List (String × List (Option Val))) :=
  if df.cols.contains src then
    (to_datetime_strict (colCells df src)).map (fun cs => [(dst, cs)])
  else pure []

def deriveTimestamps (df : DataFrame) : Except String DataFrame := do
  let c1 ← dtExprFor df "startTime" "startTime_dt"
  let c2 ← dtExprFor df "endTime" "endTime_dt"
  pure ((c1 ++ c2).foldl (fun d p => setColumn d p.1 p.2) df)

/-- The failure categories the script can report.  `missingDep` and
`computeError` are uncaught exceptions (traceback, nonzero exit status); the
other four are the `print`-then-`exit()` handlers and the write handler. -/
inductive ErrKind where
  | missingDep | inputNotFound | decodeFailure | emptyResult | computeError | writeFailure

/-- The script's environment: whether the four imports succeed, whether the
input file opens, the result of streaming the JSON items, and whether
`write_parquet` succeeds. -/
structure Env where
  libsOk : Bool
  fileOk : Bool
  decoded : Except String (List Json)
  writeOk : Bool

/-- Observable outcome of one run: the reported failure category (a printed
diagnostic — for the uncaught categories, a traceback), the process exit
status (`exit()` with no argument exits with status 0; an uncaught exception
exits with status 1), and the written output table, if any. -/
structure ScriptResult where
  report : Option ErrKind
  exitCode : ℕ
  written : Option DataFrame

/-- The whole script as one run.  Import failures happen at lines 1-4, before
the `try` block, hence are uncaught.  `FileNotFoundError`, every exception
during streaming/flattening, and the empty-DataFrame `exit()` are handled at
lines 111-126 (`SystemExit` is not an `Exception`, so `exit()` passes the
handler).  The timestamp derivation runs after the handlers; an error there is
uncaught.  A `write_parquet` failure is caught at line 156, printed, and the
script then falls off the end (exit status 0). -/
def runScript (env : Env) : ScriptResult :=
  if !env.libsOk then ⟨some .missingDep, 1, none⟩
  else if !env.fileOk then ⟨some .inputNotFound, 0, none⟩
  else
    match env.decoded with
    | .error _ => ⟨some .decodeFailure, 0, none⟩
    | .ok entries =>
      match processAll entries with
      | .error _ => ⟨some .decodeFailure, 0, none⟩
      | .ok rows =>
        if rows.isEmpty then ⟨some .emptyResult, 0, none⟩
        else
          match deriveTimestamps (from_records rows) with
          | .error _ => ⟨some .computeError, 1, none⟩
          | .ok df => if env.writeOk then ⟨none, 0, some df⟩ else ⟨some .writeFailure, 0, none⟩

/-- Whether a fallible computation raised. -/
def isErr {α : Type} : Except String α → Bool
  | .error _ => true
  | .ok _ => false

theorem isErr_of_error {α : Type} {x : Except String α} {e : String} (h : x = .error e) :
    isErr x = true := by
  subst h; rfl

theorem exists_error_of_isErr {α : Type} {x : Except String α} (h : isErr x = true) :
    ∃ e, x = .error e := by
  cases x with
  | error e => exact ⟨e, rfl⟩
  | ok a => simp [isErr] at h

theorem ok_of_bind {α β : Type} {x : Except String α} {f : α → Except String β} {b : β}
    (h : (x >>= f) = .ok b) : ∃ a, x = .ok a ∧ f a = .ok b := by
  cases x with
  | error e => exact Except.noConfusion h
  | ok a => exact ⟨a, rfl, h⟩

theorem bind_of_ok {α β : Type} {x : Except String α} {f : α → Except String β} {a : α}
    (h : x = .ok a) : (x >>= f) = f a := by
  subst h; rfl

theorem isErr_bind_left {α β : Type} {x : Except String α} {f : α → Except String β}
    (h : isErr x = true) : isErr (x >>= f) = true := by
  rcases exists_error_of_isErr h with ⟨e, he⟩
  subst he; rfl

theorem isErr_mapM_of_mem {α β : Type} {f : α → Except String β} {l : List α} {a : α}
    (hmem : a ∈ l) (herr : isErr (f a) = true) : isErr (l.mapM f) = true := by
  induction l with
  | nil => cases hmem
  | cons x xs ih =>
    rw [List.mapM_cons]
    rcases List.mem_cons.mp hmem with h | h
    · subst h
      exact isErr_bind_left herr
    · cases hf : f x with
      | error e => rfl
      | ok y =>
        show isErr (xs.mapM f >>= fun ys => pure (y :: ys)) = true
        exact isErr_bind_left (ih h)

theorem mapM_ok_mem {α β : Type} {f : α → Except String β} {l : List α} {ys : List β}
    (h : l.mapM f = .ok ys) : ∀ y ∈ ys, ∃ a ∈ l, f a = .ok y := by
  induction l generalizing ys with
  | nil =>
    rw [List.mapM_nil] at h
    cases h
    intro y hy; cases hy
  | cons x xs ih =>
    rw [List.mapM_cons] at h
    rcases ok_of_bind h with ⟨y0, hy0, h2⟩
    rcases ok_of_bind h2 with ⟨ys0, hys0, h3⟩
    cases h3
    intro y hy
    rcases List.mem_cons.mp hy with h | h
    · exact ⟨x, List.mem_cons_self x xs, h ▸ hy0⟩
    · rcases ih hys0 y h with ⟨a, ha, hfa⟩
      exact ⟨a, List.mem_cons_of_mem x ha, hfa⟩

theorem lookup_map_overwrite {r : Row} {k k' : String} {v : Val} (h : k' ≠ k) :
    List.lookup k' (r.map (fun p => if p.1 = k then (k, v) else p)) = List.lookup k' r := by
  induction r with
  | nil => rfl
  | cons p r ih =>
    rcases p with ⟨pk, pv⟩
    by_cases hp : pk = k
    · subst hp
      simp [List.lookup_cons, beq_false_of_ne h, ih]
    · rw [List.map_cons, show (if (pk, pv).1 = k then (k, v) else (pk, pv)) = (pk, pv) from if_neg hp,
        List.lookup_cons, List.lookup_cons]
      cases hpk : k' == pk with
      | true => rfl
      | false => exact ih

theorem lookup_append_single {r : Row} {k k' : String} {v : Val} (h : k' ≠ k) :
    List.lookup k' (r ++ [(k, v)]) = List.lookup k' r := by
  induction r with
  | nil => simp [List.lookup_cons, beq_false_of_ne h]
  | cons p r ih =>
    rcases p with ⟨pk, pv⟩
    simp only [List.cons_append, List.lookup_cons]
    cases hpk : k' == pk with
    | true => rfl
    | false => exact ih

theorem lookup_rset_ne {r : Row} {k k' : String} {v : Val} (h : k' ≠ k) :
    List.lookup k' (rset r k v) = List.lookup k' r := by
  unfold rset
  split
  · exact lookup_map_overwrite h
  · exact lookup_append_single h

theorem lookup_rset_self {r : Row} {k : String} {v : Val} :
    List.lookup k (rset r k v) = some v := by
  unfold rset
  split
  · rename_i hany
    induction r with
    | nil => simp at hany
    | cons p r ih =>
      rcases p with ⟨pk, pv⟩
      by_cases hp : pk = k
      · subst hp
        simp [List.lookup_cons]
      · simp only [List.any_cons] at hany
        rcases Bool.or_eq_true_iff.mp hany with hc | hc
        · exact absurd (of_decide_eq_true hc) hp
        · rw [List.map_cons, show (if (pk, pv).1 = k then (k, v) else (pk, pv)) = (pk, pv) from if_neg hp,
            List.lookup_cons, show (k == pk) = false from beq_false_of_ne (fun hc2 => hp hc2.symm)]
          exact ih hc
  · rename_i hany
    induction r with
    | nil => simp [List.lookup_cons]
    | cons p r ih =>
      rcases p with ⟨pk, pv⟩
      have hp : ¬pk = k := by
        intro hc
        exact hany (by simp [List.any_cons, hc])
      simp only [List.cons_append, List.lookup_cons,
        show (k == pk) = false from beq_false_of_ne (fun hc2 => hp hc2.symm)]
      apply ih
      intro hc
      exact hany (by simp [List.any_cons, hc])

theorem mem_rowKeys_of_lookup {r : Row} {k : String} {v : Val}
    (h : List.lookup k r = some v) : k ∈ rowKeys r := by
  induction r with
  | nil => cases h
  | cons p r ih =>
    rcases p with ⟨pk, pv⟩
    rw [List.lookup_cons] at h
    cases hpk : k == pk with
    | true =>
      exact List.mem_cons.mpr (Or.inl (eq_of_beq hpk))
    | false =>
      rw [hpk] at h
      exact List.mem_cons.mpr (Or.inr (ih h))

theorem mem_addKeys_inner {keys : List String} {acc : List String} {k : String} :
    k ∈ keys.foldl (fun a k' => if k' ∈ a then a else a ++ [k']) acc ↔ k ∈ acc ∨ k ∈ keys := by
  induction keys generalizing acc with
  | nil => simp
  | cons x xs ih =>
    simp only [List.foldl_cons]
    by_cases hx : x ∈ acc
    · rw [if_pos hx, ih]
      constructor
      · rintro (h | h)
        · exact Or.inl h
        · exact Or.inr (List.mem_cons_of_mem x h)
      · rintro (h | h)
        · exact Or.inl h
        · rcases List.mem_cons.mp h with h | h
          · exact Or.inl (h ▸ hx)
          · exact Or.inr h
    · rw [if_neg hx, ih]
      simp only [List.mem_append, List.mem_singleton, List.mem_cons]
      tauto

theorem mem_addKeys {acc : List String} {r : Row} {k : String} :
    k ∈ addKeys acc r ↔ k ∈ acc ∨ k ∈ rowKeys r := by
  unfold addKeys
  exact mem_addKeys_inner

theorem mem_inferCols_general {rs : List Row} {acc : List String} {k : String} :
    k ∈ rs.foldl addKeys acc ↔ k ∈ acc ∨ ∃ r ∈ rs, k ∈ rowKeys r := by
  induction rs generalizing acc with
  | nil => simp
  | cons r rs ih =>
    simp only [List.foldl_cons]
    rw [ih, mem_addKeys]
    constructor
    · rintro ((h | h) | ⟨r', hr', hk⟩)
      · exact Or.inl h
      · exact Or.inr ⟨r, List.mem_cons_self r rs, h⟩
      · exact Or.inr ⟨r', List.mem_cons_of_mem r hr', hk⟩
    · rintro (h | ⟨r', hr', hk⟩)
      · exact Or.inl (Or.inl h)
      · rcases List.mem_cons.mp hr' with h | h
        · exact Or.inl (Or.inr (h ▸ hk))
        · exact Or.inr ⟨r', h, hk⟩

theorem mem_inferCols {rs : List Row} {k : String} :
    k ∈ inferCols rs ↔ ∃ r ∈ rs, k ∈ rowKeys r := by
  unfold inferCols
  rw [mem_inferCols_general]
  simp

theorem copyStep_pres {d : Json} {k outK t : String} {r r' : Row}
    (hne : t ≠ outK) (h : copyStep d k outK r = .ok r') :
    List.lookup t r' = List.lookup t r := by
  unfold copyStep at h
  rcases ok_of_bind h with ⟨b, _, h2⟩
  cases b with
  | false =>
    rw [if_neg Bool.false_ne_true] at h2
    obtain rfl := Except.ok.inj h2
    rfl
  | true =>
    rw [if_pos rfl] at h2
    rcases ok_of_bind h2 with ⟨x, _, h3⟩
    obtain rfl := Except.ok.inj h3
    exact lookup_rset_ne hne

theorem floatStep_pres {d : Json} {k outK t : String} {r r' : Row}
    (hne : t ≠ outK) (h : floatStep d k outK r = .ok r') :
    List.lookup t r' = List.lookup t r := by
  unfold floatStep at h
  rcases ok_of_bind h with ⟨b, _, h2⟩
  cases b with
  | false =>
    rw [if_neg Bool.false_ne_true] at h2
    obtain rfl := Except.ok.inj h2
    rfl
  | true =>
    rw [if_pos rfl] at h2
    rcases ok_of_bind h2 with ⟨x, _, h3⟩
    rcases ok_of_bind h3 with ⟨q, _, h4⟩
    obtain rfl := Except.ok.inj h4
    exact lookup_rset_ne hne

theorem geoAssign_pres {v : Json} {k1 k2 t : String} {r r' : Row}
    (h1 : t ≠ k1) (h2 : t ≠ k2) (h : geoAssign v k1 k2 r = .ok r') :
    List.lookup t r' = List.lookup t r := by
  cases v with
  | str s =>
    cases hm : geoMatch s with
    | none =>
      simp only [geoAssign] at h
      rw [hm] at h
      obtain rfl := Except.ok.inj h
      rfl
    | some p =>
      rcases p with ⟨g1, g2⟩
      simp only [geoAssign] at h
      rw [hm] at h
      rcases ok_of_bind h with ⟨a, _, ha⟩
      rcases ok_of_bind ha with ⟨b, _, hb⟩
      obtain rfl := Except.ok.inj hb
      rw [lookup_rset_ne h2, lookup_rset_ne h1]
  | null => exact Except.noConfusion h
  | bool b => exact Except.noConfusion h
  | num q => exact Except.noConfusion h
  | arr l => exact Except.noConfusion h
  | obj l => exact Except.noConfusion h

theorem geoStep_pres {d : Json} {k k1 k2 t : String} {r r' : Row}
    (h1 : t ≠ k1) (h2 : t ≠ k2) (h : geoStep d k k1 k2 r = .ok r') :
    List.lookup t r' = List.lookup t r := by
  unfold geoStep at h
  rcases ok_of_bind h with ⟨b, _, hb⟩
  cases b with
  | false =>
    rw [if_neg Bool.false_ne_true] at hb
    obtain rfl := Except.ok.inj hb
    rfl
  | true =>
    rw [if_pos rfl] at hb
    rcases ok_of_bind hb with ⟨v, _, hv⟩
    exact geoAssign_pres h1 h2 hv

theorem visitBlock_pres {e : Json} {r r' : Row} {t : String}
    (n1 : t ≠ "semanticType") (n2 : t ≠ "probability") (n3 : t ≠ "placeID")
    (n4 : t ≠ "latitude") (n5 : t ≠ "longitude")
    (h : visitBlock e r = .ok r') : List.lookup t r' = List.lookup t r := by
  unfold visitBlock at h
  rcases ok_of_bind h with ⟨hv, _, h⟩
  cases hv with
  | false =>
    rw [if_neg Bool.false_ne_true] at h
    obtain rfl := Except.ok.inj h
    rfl
  | true =>
    rw [if_pos rfl] at h
    rcases ok_of_bind h with ⟨v, _, h⟩
    rcases ok_of_bind h with ⟨htc, _, h⟩
    cases htc with
    | false =>
      rw [if_neg Bool.false_ne_true] at h
      obtain rfl := Except.ok.inj h
      rfl
    | true =>
      rw [if_pos rfl] at h
      rcases ok_of_bind h with ⟨tc, _, h⟩
      rcases ok_of_bind h with ⟨r1, hr1, h⟩
      rcases ok_of_bind h with ⟨r2, hr2, h⟩
      rcases ok_of_bind h with ⟨r3, hr3, h⟩
      rw [geoStep_pres n4 n5 h, copyStep_pres n3 hr3, floatStep_pres n2 hr2,
        copyStep_pres n1 hr1]

theorem activityBlock_pres {e : Json} {r r' : Row} {t : String}
    (n1 : t ≠ "start_lat") (n2 : t ≠ "start_lng") (n3 : t ≠ "end_lat")
    (n4 : t ≠ "end_lng") (n5 : t ≠ "distance_meters") (n6 : t ≠ "activity_type")
    (n7 : t ≠ "activity_probability")
    (h : activityBlock e r = .ok r') : List.lookup t r' = List.lookup t r := by
  unfold activityBlock at h
  rcases ok_of_bind h with ⟨ha, _, h⟩
  cases ha with
  | false =>
    rw [if_neg Bool.false_ne_true] at h
    obtain rfl := Except.ok.inj h
    rfl
  | true =>
    rw [if_pos rfl] at h
    rcases ok_of_bind h with ⟨act, _, h⟩
    rcases ok_of_bind h with ⟨r1, hr1, h⟩
    rcases ok_of_bind h with ⟨r2, hr2, h⟩
    rcases ok_of_bind h with ⟨r3, hr3, h⟩
    rcases ok_of_bind h with ⟨htc, _, h⟩
    have base : List.lookup t r3 = List.lookup t r := by
      rw [floatStep_pres n5 hr3, geoStep_pres n3 n4 hr2, geoStep_pres n1 n2 hr1]
    cases htc with
    | false =>
      rw [if_neg Bool.false_ne_true] at h
      obtain rfl := Except.ok.inj h
      exact base
    | true =>
      rw [if_pos rfl] at h
      rcases ok_of_bind h with ⟨tc, _, h⟩
      rcases ok_of_bind h with ⟨r4, hr4, h⟩
      rw [floatStep_pres n7 h, copyStep_pres n6 hr4, base]

theorem segmentBlock_pres {e : Json} {r r' : Row} {t : String}
    (n1 : t ≠ "activityType") (n2 : t ≠ "activityConfidence")
    (n3 : t ≠ "segment_distance") (n4 : t ≠ "segment_duration")
    (n5 : t ≠ "segment_activityType") (n6 : t ≠ "segment_confidence")
    (h : segmentBlock e r = .ok r') : List.lookup t r' = List.lookup t r := by
  unfold segmentBlock at h
  rcases ok_of_bind h with ⟨hs, _, h⟩
  cases hs with
  | false =>
    rw [if_neg Bool.false_ne_true] at h
    obtain rfl := Except.ok.inj h
    rfl
  | true =>
    rw [if_pos rfl] at h
    rcases ok_of_bind h with ⟨seg, _, h⟩
    rcases ok_of_bind h with ⟨r1, hr1, h⟩
    rcases ok_of_bind h with ⟨r2, hr2, h⟩
    rcases ok_of_bind h with ⟨r3, hr3, h⟩
    rcases ok_of_bind h with ⟨r4, hr4, h⟩
    have base : List.lookup t r1 = List.lookup t r := by
      unfold segActs at hr1
      rcases ok_of_bind hr1 with ⟨hacts, _, h1⟩
      cases hacts with
      | false =>
        rw [if_neg Bool.false_ne_true] at h1
        obtain rfl := Except.ok.inj h1
        rfl
      | true =>
        rw [if_pos rfl] at h1
        rcases ok_of_bind h1 with ⟨avs, _, h1⟩
        cases htr : truthy avs with
        | false =>
          rw [htr, if_neg Bool.false_ne_true] at h1
          obtain rfl := Except.ok.inj h1
          rfl
        | true =>
          rw [htr, if_pos rfl] at h1
          rcases ok_of_bind h1 with ⟨a0, _, h1⟩
          rcases ok_of_bind h1 with ⟨tv, _, h1⟩
          rcases ok_of_bind h1 with ⟨p, _, h1⟩
          rcases ok_of_bind h1 with ⟨q, _, h1⟩
          obtain rfl := Except.ok.inj h1
          rw [lookup_rset_ne n2, lookup_rset_ne n1]
    rw [copyStep_pres n6 h, copyStep_pres n5 hr4, copyStep_pres n4 hr3,
      copyStep_pres n3 hr2, base]

@[simp] theorem isErr_error {α : Type} {e : String} :
    isErr (Except.error e : Except String α) = true := rfl

@[simp] theorem isErr_ok {α : Type} {a : α} :
    isErr (Except.ok a : Except String α) = false := rfl

@[simp] theorem error_bind {α β : Type} {e : String} {f : α → Except String β} :
    (Except.error e >>= f) = (Except.error e : Except String β) := rfl

@[simp] theorem ok_bind {α β : Type} {a : α} {f : α → Except String β} :
    (Except.ok a >>= f) = f a := rfl

@[simp] theorem map_of_error {α β : Type} {e : String} {f : α → β} :
    (f <$> (Except.error e : Except String α)) = (Except.error e : Except String β) := rfl

@[simp] theorem map_of_ok {α β : Type} {a : α} {f : α → β} :
    (f <$> (Except.ok a : Except String α)) = (Except.ok (f a) : Except String β) := rfl

@[simp] theorem pure_eq_ok {α : Type} {a : α} :
    (pure a : Except String α) = Except.ok a := rfl

theorem geoAssign_ok_vals {s g1 g2 : String} {a b : ℚ} {r : Row} {k1 k2 : String}
    (hm : geoMatch s = some (g1, g2)) (h1 : pyFloatOfString g1 = some a)
    (h2 : pyFloatOfString g2 = some b) :
    geoAssign (.str s) k1 k2 r = .ok (rset (rset r k1 (.vfloat a)) k2 (.vfloat b)) := by
  simp only [geoAssign, hm, pyFloat, pyFloatOfJson, h1, h2]
  rfl

theorem geoAssign_no_match {s : String} {r : Row} {k1 k2 : String}
    (hm : geoMatch s = none) : geoAssign (.str s) k1 k2 r = .ok r := by
  simp [geoAssign, hm]

theorem geoAssign_err {s g1 g2 : String} {r : Row} {k1 k2 : String}
    (hm : geoMatch s = some (g1, g2))
    (hbad : pyFloatOfString g1 = none ∨ pyFloatOfString g2 = none) :
    isErr (geoAssign (.str s) k1 k2 r) = true := by
  rcases hbad with h | h
  · simp [geoAssign, hm, pyFloat, pyFloatOfJson, h]
  · cases hg1 : pyFloatOfString g1 with
    | none => simp [geoAssign, hm, pyFloat, pyFloatOfJson, hg1]
    | some a => simp [geoAssign, hm, pyFloat, pyFloatOfJson, hg1, h]

/-- The base row shared by all records lacking `startTime`/`endTime`. -/
def rBase : Row := [("startTime", .vjson .null), ("endTime", .vjson .null)]

/-- A record whose only content is a `visit.topCandidate.placeLocation` string. -/
def visitLocEntry (s : String) : Json :=
  .obj [("visit", .obj [("topCandidate", .obj [("placeLocation", .str s)])])]

/-- A record whose only content is an `activity.start` string. -/
def activityStartEntry (s : String) : Json :=
  .obj [("activity", .obj [("start", .str s)])]

/-- A record whose only content is an `activity.end` string. -/
def activityEndEntry (s : String) : Json :=
  .obj [("activity", .obj [("end", .str s)])]

theorem visitLoc_reduce (s : String) :
    process_location_entry (visitLocEntry s) =
      geoAssign (.str s) "latitude" "longitude" rBase := by
  cases hga : geoAssign (.str s) "latitude" "longitude" rBase with
  | error e =>
    simp only [rBase] at hga
    simp [process_location_entry, visitLocEntry, pyGet, visitBlock, jMember, jIndex,
      copyStep, floatStep, geoStep, List.lookup_cons, rBase, activityBlock, segmentBlock, hga]
  | ok r =>
    simp only [rBase] at hga
    simp [process_location_entry, visitLocEntry, pyGet, visitBlock, jMember, jIndex,
      copyStep, floatStep, geoStep, List.lookup_cons, rBase, activityBlock, segmentBlock,
      segActs, hga]

theorem activityStart_reduce (s : String) :
    process_location_entry (activityStartEntry s) =
      geoAssign (.str s) "start_lat" "start_lng" rBase := by
  cases hga : geoAssign (.str s) "start_lat" "start_lng" rBase with
  | error e =>
    simp only [rBase] at hga
    simp [process_location_entry, activityStartEntry, pyGet, visitBlock, jMember, jIndex,
      copyStep, floatStep, geoStep, List.lookup_cons, rBase, activityBlock, segmentBlock, hga]
  | ok r =>
    simp only [rBase] at hga
    simp [process_location_entry, activityStartEntry, pyGet, visitBlock, jMember, jIndex,
      copyStep, floatStep, geoStep, List.lookup_cons, rBase, activityBlock, segmentBlock,
      segActs, hga]

theorem activityEnd_reduce (s : String) :
    process_location_entry (activityEndEntry s) =
      geoAssign (.str s) "end_lat" "end_lng" rBase := by
  cases hga : geoAssign (.str s) "end_lat" "end_lng" rBase with
  | error e =>
    simp only [rBase] at hga
    simp [process_location_entry, activityEndEntry, pyGet, visitBlock, jMember, jIndex,
      copyStep, floatStep, geoStep, List.lookup_cons, rBase, activityBlock, segmentBlock, hga]
  | ok r =>
    simp only [rBase] at hga
    simp [process_location_entry, activityEndEntry, pyGet, visitBlock, jMember, jIndex,
      copyStep, floatStep, geoStep, List.lookup_cons, rBase, activityBlock, segmentBlock,
      segActs, hga]

theorem setColumn_mem_self {df : DataFrame} {k : String} {cells : List (Option Val)} :
    k ∈ (setColumn df k cells).cols := by
  unfold setColumn
  by_cases hc : df.cols.contains k = true
  · rw [if_pos hc]
    exact List.mem_of_elem_eq_true hc
  · rw [if_neg hc]
    exact List.mem_append.mpr (Or.inr (List.mem_singleton.mpr rfl))

theorem setColumn_mem_mono {df : DataFrame} {k k2 : String} {cells : List (Option Val)}
    (h : k2 ∈ df.cols) : k2 ∈ (setColumn df k cells).cols := by
  unfold setColumn
  by_cases hc : df.cols.contains k = true
  · rw [if_pos hc]
    exact h
  · rw [if_neg hc]
    exact List.mem_append.mpr (Or.inl h)

theorem dtExprFor_ok_shape {df : DataFrame} {src dst : String} {c : List (String × List (Option Val))}
    (hcol : src ∈ df.cols) (h : dtExprFor df src dst = .ok c) :
    ∃ cs, to_datetime_strict (colCells df src) = .ok cs ∧ c = [(dst, cs)] := by
  unfold dtExprFor at h
  rw [if_pos (List.elem_eq_true_of_mem hcol)] at h
  cases ht : to_datetime_strict (colCells df src) with
  | error e => rw [ht] at h; exact Except.noConfusion h
  | ok cs =>
    rw [ht] at h
    exact ⟨cs, rfl, (Except.ok.inj h).symm⟩

theorem deriveTimestamps_ok_cols {df df' : DataFrame}
    (h1 : "startTime" ∈ df.cols) (h2 : "endTime" ∈ df.cols)
    (h : deriveTimestamps df = .ok df') :
    "startTime_dt" ∈ df'.cols ∧ "endTime_dt" ∈ df'.cols := by
  unfold deriveTimestamps at h
  rcases ok_of_bind h with ⟨c1, hc1, h⟩
  rcases ok_of_bind h with ⟨c2, hc2, h⟩
  obtain rfl := Except.ok.inj h
  rcases dtExprFor_ok_shape h1 hc1 with ⟨cs1, _, rfl⟩
  rcases dtExprFor_ok_shape h2 hc2 with ⟨cs2, _, rfl⟩
  constructor
  · exact setColumn_mem_mono setColumn_mem_self
  · exact setColumn_mem_self

theorem to_datetime_err_of_bad_cell {cells : List (Option Val)} {s : String}
    (hmem : (some (Val.vjson (.str s)) : Option Val) ∈ cells)
    (hbad : isDatetimeString s = false) :
    isErr (to_datetime_strict cells) = true := by
  apply isErr_mapM_of_mem hmem
  simp [hbad]

theorem cell_mem_colCells {df : DataFrame} {rec : Row} {k : String} {c : Option Val}
    (hrec : rec ∈ df.recs) (hlk : List.lookup k rec = c) : c ∈ colCells df k := by
  unfold colCells
  exact List.mem_map.mpr ⟨rec, hrec, hlk⟩

theorem dtExprFor_err {df : DataFrame} {src dst : String}
    (hcol : src ∈ df.cols)
    (herr : isErr (to_datetime_strict (colCells df src)) = true) :
    isErr (dtExprFor df src dst) = true := by
  unfold dtExprFor
  rw [if_pos (List.elem_eq_true_of_mem hcol)]
  rcases exists_error_of_isErr herr with ⟨e, he⟩
  rw [he]
  rfl

theorem deriveTimestamps_err_start {df : DataFrame}
    (hcol : "startTime" ∈ df.cols)
    (herr : isErr (to_datetime_strict (colCells df "startTime")) = true) :
    isErr (deriveTimestamps df) = true := by
  unfold deriveTimestamps
  exact isErr_bind_left (dtExprFor_err hcol herr)

theorem deriveTimestamps_err_end {df : DataFrame}
    (hcol : "endTime" ∈ df.cols)
    (herr : isErr (to_datetime_strict (colCells df "endTime")) = true) :
    isErr (deriveTimestamps df) = true := by
  unfold deriveTimestamps
  cases h1 : dtExprFor df "startTime" "startTime_dt" with
  | error e => rfl
  | ok c1 =>
    show isErr (dtExprFor df "endTime" "endTime_dt" >>= fun c2 =>
      pure (List.foldl (fun d p => setColumn d p.1 p.2) df (c1 ++ c2))) = true
    exact isErr_bind_left (dtExprFor_err hcol herr)

theorem flatten_no_sections {l : List (String × Json)}
    (hv : List.lookup "visit" l = none) (ha : List.lookup "activity" l = none)
    (hs : List.lookup "activitySegment" l = none) :
    process_location_entry (.obj l) =
      .ok [("startTime", .vjson ((List.lookup "startTime" l).getD .null)),
           ("endTime", .vjson ((List.lookup "endTime" l).getD .null))] := by
  simp [process_location_entry, pyGet, visitBlock, activityBlock, segmentBlock, jMember,
    hv, ha, hs]

theorem process_ok_obj {e : Json} {r : Row} (h : process_location_entry e = .ok r) :
    ∃ l, e = .obj l := by
  unfold process_location_entry at h
  rcases ok_of_bind h with ⟨s, hs, _⟩
  cases e with
  | obj l => exact ⟨l, rfl⟩
  | null => exact Except.noConfusion hs
  | bool b => exact Except.noConfusion hs
  | num q => exact Except.noConfusion hs
  | str s2 => exact Except.noConfusion hs
  | arr l2 => exact Except.noConfusion hs

theorem process_ok_ts {l : List (String × Json)} {r : Row}
    (h : process_location_entry (.obj l) = .ok r) :
    List.lookup "startTime" r = some (.vjson ((List.lookup "startTime" l).getD .null)) ∧
    List.lookup "endTime" r = some (.vjson ((List.lookup "endTime" l).getD .null)) := by
  unfold process_location_entry at h
  rcases ok_of_bind h with ⟨s, hs, h1⟩
  rcases ok_of_bind h1 with ⟨e2, he2, h2⟩
  rcases ok_of_bind h2 with ⟨r1, hr1, h3⟩
  rcases ok_of_bind h3 with ⟨r2, hr2, hsegb⟩
  obtain rfl : (List.lookup "startTime" l).getD .null = s := Except.ok.inj hs
  obtain rfl : (List.lookup "endTime" l).getD .null = e2 := Except.ok.inj he2
  constructor
  · rw [segmentBlock_pres (by decide) (by decide) (by decide) (by decide) (by decide)
        (by decide) hsegb,
      activityBlock_pres (by decide) (by decide) (by decide) (by decide) (by decide)
        (by decide) (by decide) hr2,
      visitBlock_pres (by decide) (by decide) (by decide) (by decide) (by decide) hr1]
    rfl
  · rw [segmentBlock_pres (by decide) (by decide) (by decide) (by decide) (by decide)
        (by decide) hsegb,
      activityBlock_pres (by decide) (by decide) (by decide) (by decide) (by decide)
        (by decide) (by decide) hr2,
      visitBlock_pres (by decide) (by decide) (by decide) (by decide) (by decide) hr1]
    rfl

theorem from_records_col_of_all {rows : List Row} {k : String}
    (hne : rows ≠ []) (hall : ∀ r ∈ rows, k ∈ rowKeys r) :
    k ∈ (from_records rows).cols := by
  cases rows with
  | nil => exact absurd rfl hne
  | cons r0 rest =>
    apply mem_inferCols.mpr
    refine ⟨r0, ?_, hall r0 (List.mem_cons_self _ _)⟩
    show r0 ∈ (r0 :: rest).take inferWindow
    rw [show inferWindow = 99 + 1 from rfl, List.take_succ_cons]
    exact List.mem_cons_self _ _

/-- The `visit.topCandidate.probability` value exists but `float` rejects it. -/
def visitProbBad (e : Json) : Prop :=
  ∃ l v tc p, e = .obj l ∧ List.lookup "visit" l = some (.obj v) ∧
    List.lookup "topCandidate" v = some (.obj tc) ∧
    List.lookup "probability" tc = some p ∧ pyFloatOfJson p = none

/-- The `activity.distanceMeters` value exists but `float` rejects it. -/
def distanceBad (e : Json) : Prop :=
  ∃ l a d, e = .obj l ∧ List.lookup "activity" l = some (.obj a) ∧
    List.lookup "distanceMeters" a = some d ∧ pyFloatOfJson d = none

/-- The `activity.topCandidate.probability` value exists but `float` rejects it. -/
def activityProbBad (e : Json) : Prop :=
  ∃ l a tc p, e = .obj l ∧ List.lookup "activity" l = some (.obj a) ∧
    List.lookup "topCandidate" a = some (.obj tc) ∧
    List.lookup "probability" tc = some p ∧ pyFloatOfJson p = none

/-- The first element of `activitySegment.activities` has a `probability`
value that `float` rejects. -/
def firstActivityProbBad (e : Json) : Prop :=
  ∃ l seg a0 rest p, e = .obj l ∧ List.lookup "activitySegment" l = some (.obj seg) ∧
    List.lookup "activities" seg = some (.arr (.obj a0 :: rest)) ∧
    List.lookup "probability" a0 = some p ∧ pyFloatOfJson p = none

/-- One of the four numeric source fields cannot be converted to a float. -/
def badNumeric (e : Json) : Prop :=
  visitProbBad e ∨ distanceBad e ∨ activityProbBad e ∨ firstActivityProbBad e

theorem perr_of_visitProbBad {e : Json} (hb : visitProbBad e) :
    isErr (process_location_entry e) = true := by
  rcases hb with ⟨l, v, tc, p, rfl, hv, htc, hp, hbadf⟩
  cases hpe : process_location_entry (.obj l) with
  | error msg => rfl
  | ok r =>
    exfalso
    unfold process_location_entry at hpe
    rcases ok_of_bind hpe with ⟨s, _, h⟩
    rcases ok_of_bind h with ⟨e2, _, h⟩
    rcases ok_of_bind h with ⟨r1, hr1, _⟩
    unfold visitBlock at hr1
    rw [show jMember "visit" (.obj l) = .ok true from by simp [jMember, hv],
      ok_bind, if_pos rfl,
      show jIndex (.obj l) "visit" = .ok (.obj v) from by simp [jIndex, hv],
      ok_bind,
      show jMember "topCandidate" (Json.obj v) = .ok true from by simp [jMember, htc],
      ok_bind, if_pos rfl,
      show jIndex (.obj v) "topCandidate" = .ok (.obj tc) from by simp [jIndex, htc],
      ok_bind] at hr1
    rcases ok_of_bind hr1 with ⟨ra, _, hr1⟩
    rcases ok_of_bind hr1 with ⟨rb, hrb, _⟩
    unfold floatStep at hrb
    rw [show jMember "probability" (Json.obj tc) = .ok true from by simp [jMember, hp],
      ok_bind, if_pos rfl,
      show jIndex (.obj tc) "probability" = .ok p from by simp [jIndex, hp],
      ok_bind,
      show pyFloat p = .error "ValueError: could not convert to float" from
        by simp [pyFloat, hbadf],
      error_bind] at hrb
    exact Except.noConfusion hrb

theorem perr_of_distanceBad {e : Json} (hb : distanceBad e) :
    isErr (process_location_entry e) = true := by
  rcases hb with ⟨l, a, d, rfl, ha, hd, hbadf⟩
  cases hpe : process_location_entry (.obj l) with
  | error msg => rfl
  | ok r =>
    exfalso
    unfold process_location_entry at hpe
    rcases ok_of_bind hpe with ⟨s, _, h⟩
    rcases ok_of_bind h with ⟨e2, _, h⟩
    rcases ok_of_bind h with ⟨r1, _, h⟩
    rcases ok_of_bind h with ⟨r2, ha2, _⟩
    unfold activityBlock at ha2
    rw [show jMember "activity" (.obj l) = .ok true from by simp [jMember, ha],
      ok_bind, if_pos rfl,
      show jIndex (.obj l) "activity" = .ok (.obj a) from by simp [jIndex, ha],
      ok_bind] at ha2
    rcases ok_of_bind ha2 with ⟨s1, _, ha2⟩
    rcases ok_of_bind ha2 with ⟨s2, _, ha2⟩
    rcases ok_of_bind ha2 with ⟨s3, hs3, _⟩
    unfold floatStep at hs3
    rw [show jMember "distanceMeters" (Json.obj a) = .ok true from by simp [jMember, hd],
      ok_bind, if_pos rfl,
      show jIndex (.obj a) "distanceMeters" = .ok d from by simp [jIndex, hd],
      ok_bind,
      show pyFloat d = .error "ValueError: could not convert to float" from
        by simp [pyFloat, hbadf],
      error_bind] at hs3
    exact Except.noConfusion hs3

theorem perr_of_activityProbBad {e : Json} (hb : activityProbBad e) :
    isErr (process_location_entry e) = true := by
  rcases hb with ⟨l, a, tc, p, rfl, ha, htc, hp, hbadf⟩
  cases hpe : process_location_entry (.obj l) with
  | error msg => rfl
  | ok r =>
    exfalso
    unfold process_location_entry at hpe
    rcases ok_of_bind hpe with ⟨s, _, h⟩
    rcases ok_of_bind h with ⟨e2, _, h⟩
    rcases ok_of_bind h with ⟨r1, _, h⟩
    rcases ok_of_bind h with ⟨r2, ha2, _⟩
    unfold activityBlock at ha2
    rw [show jMember "activity" (.obj l) = .ok true from by simp [jMember, ha],
      ok_bind, if_pos rfl,
      show jIndex (.obj l) "activity" = .ok (.obj a) from by simp [jIndex, ha],
      ok_bind] at ha2
    rcases ok_of_bind ha2 with ⟨s1, _, ha2⟩
    rcases ok_of_bind ha2 with ⟨s2, _, ha2⟩
    rcases ok_of_bind ha2 with ⟨s3, _, ha2⟩
    rw [show jMember "topCandidate" (Json.obj a) = .ok true from by simp [jMember, htc],
      ok_bind, if_pos rfl,
      show jIndex (.obj a) "topCandidate" = .ok (.obj tc) from by simp [jIndex, htc],
      ok_bind] at ha2
    rcases ok_of_bind ha2 with ⟨s4, _, ha2⟩
    unfold floatStep at ha2
    rw [show jMember "probability" (Json.obj tc) = .ok true from by simp [jMember, hp],
      ok_bind, if_pos rfl,
      show jIndex (.obj tc) "probability" = .ok p from by simp [jIndex, hp],
      ok_bind,
      show pyFloat p = .error "ValueError: could not convert to float" from
        by simp [pyFloat, hbadf],
      error_bind] at ha2
    exact Except.noConfusion ha2

theorem perr_of_firstActivityProbBad {e : Json} (hb : firstActivityProbBad e) :
    isErr (process_location_entry e) = true := by
  rcases hb with ⟨l, seg, a0, rest, p, rfl, hseg, hacts, hp, hbadf⟩
  cases hpe : process_location_entry (.obj l) with
  | error msg => rfl
  | ok r =>
    exfalso
    unfold process_location_entry at hpe
    rcases ok_of_bind hpe with ⟨s, _, h⟩
    rcases ok_of_bind h with ⟨e2, _, h⟩
    rcases ok_of_bind h with ⟨r1, _, h⟩
    rcases ok_of_bind h with ⟨r2, _, h⟩
    unfold segmentBlock at h
    rw [show jMember "activitySegment" (.obj l) = .ok true from by simp [jMember, hseg],
      ok_bind, if_pos rfl,
      show jIndex (.obj l) "activitySegment" = .ok (.obj seg) from by simp [jIndex, hseg],
      ok_bind] at h
    rcases ok_of_bind h with ⟨ra, hra, _⟩
    unfold segActs at hra
    rw [show jMember "activities" (Json.obj seg) = .ok true from by simp [jMember, hacts],
      ok_bind, if_pos rfl,
      show jIndex (.obj seg) "activities" = .ok (.arr (.obj a0 :: rest)) from
        by simp [jIndex, hacts],
      ok_bind,
      if_pos (show truthy (Json.arr (.obj a0 :: rest)) = true from rfl),
      show jIndexZero (Json.arr (.obj a0 :: rest)) = .ok (.obj a0) from rfl,
      ok_bind] at hra
    rcases ok_of_bind hra with ⟨tv, _, hra⟩
    rw [show pyGetD (Json.obj a0) "probability" (.num 0) = .ok p from by simp [pyGetD, hp],
      ok_bind,
      show pyFloat p = .error "ValueError: could not convert to float" from
        by simp [pyFloat, hbadf],
      error_bind] at hra
    exact Except.noConfusion hra

theorem perr_of_badNumeric {e : Json} (hb : badNumeric e) :
    isErr (process_location_entry e) = true := by
  rcases hb with h | h | h | h
  · exact perr_of_visitProbBad h
  · exact perr_of_distanceBad h
  · exact perr_of_activityProbBad h
  · exact perr_of_firstActivityProbBad h

theorem runScript_decodeFailure {env : Env} {entries : List Json}
    (hl : env.libsOk = true) (hf : env.fileOk = true) (hd : env.decoded = .ok entries)
    (hperr : isErr (processAll entries) = true) :
    runScript env = ⟨some .decodeFailure, 0, none⟩ := by
  rcases exists_error_of_isErr hperr with ⟨msg, hmsg⟩
  simp [runScript, hl, hf, hd, hmsg]

theorem takeWhile_append_all {p : Char → Bool} {l1 l2 : List Char}
    (h1 : ∀ c ∈ l1, p c = true)
    (h2 : ∀ c, l2.head? = some c → p c = false) :
    (l1 ++ l2).takeWhile p = l1 ∧ (l1 ++ l2).dropWhile p = l2 := by
  induction l1 with
  | nil =>
    simp only [List.nil_append]
    cases l2 with
    | nil => exact ⟨rfl, rfl⟩
    | cons c cr =>
      rw [List.takeWhile_cons, List.dropWhile_cons, h2 c rfl]
      exact ⟨rfl, rfl⟩
  | cons a l1 ih =>
    have ha : p a = true := h1 a (List.mem_cons_self _ _)
    have htl : ∀ c ∈ l1, p c = true := fun c hc => h1 c (List.mem_cons_of_mem a hc)
    rcases ih htl with ⟨ht, hd⟩
    constructor
    · rw [List.cons_append, List.takeWhile_cons, ha]
      simp [ht]
    · rw [List.cons_append, List.dropWhile_cons, ha]
      simp [hd]

theorem geoMatchList_decomp {g1 g2 t : List Char}
    (h1 : g1 ≠ []) (h2 : g2 ≠ [])
    (ha1 : ∀ c ∈ g1, geoChar c = true) (ha2 : ∀ c ∈ g2, geoChar c = true)
    (ht : ∀ c, t.head? = some c → geoChar c = false) :
    geoMatchList ('g' :: 'e' :: 'o' :: ':' :: (g1 ++ ',' :: (g2 ++ t))) = some (g1, g2) := by
  have e1 := @takeWhile_append_all geoChar g1 (',' :: (g2 ++ t)) ha1
    (fun c hc => by
      rw [List.head?_cons] at hc
      obtain rfl : ',' = c := Option.some.inj hc
      rfl)
  have e2 := takeWhile_append_all ha2 ht
  simp only [geoMatchList, e1.1, e1.2]
  rw [show g1.isEmpty = false from by
    cases g1 with | nil => exact absurd rfl h1 | cons c cr => rfl]
  simp only [Bool.false_eq_true, if_false, e2.1, e2.2]
  rw [show g2.isEmpty = false from by
    cases g2 with | nil => exact absurd rfl h2 | cons c cr => rfl]
  simp

theorem geoMatch_decomp {r1 r2 t : String}
    (h1 : r1 ≠ "") (h2 : r2 ≠ "")
    (ha1 : ∀ c ∈ r1.data, geoChar c = true) (ha2 : ∀ c ∈ r2.data, geoChar c = true)
    (ht : ∀ c, t.data.head? = some c → geoChar c = false) :
    geoMatch ("geo:" ++ r1 ++ "," ++ r2 ++ t) = some (r1, r2) := by
  have hd1 : r1.data ≠ [] := by
    intro hc
    apply h1
    cases r1 with
    | mk d =>
      simp only at hc
      subst hc
      rfl
  have hd2 : r2.data ≠ [] := by
    intro hc
    apply h2
    cases r2 with
    | mk d =>
      simp only at hc
      subst hc
      rfl
  have hdata : ("geo:" ++ r1 ++ "," ++ r2 ++ t).data
      = 'g' :: 'e' :: 'o' :: ':' :: (r1.data ++ ',' :: (r2.data ++ t.data)) := by
    simp [String.data_append]
  unfold geoMatch
  rw [hdata, geoMatchList_decomp hd1 hd2 ha1 ha2 ht]
  rfl

theorem pyFloat_ok {x : Json} {q : ℚ} (h : pyFloat x = .ok q) : pyFloatOfJson x = some q := by
  unfold pyFloat at h
  cases hx : pyFloatOfJson x with
  | none => rw [hx] at h; exact Except.noConfusion h
  | some q2 =>
    rw [hx] at h
    rw [Except.ok.inj h]

theorem visitBlock_congr {l l' : List (String × Json)} {r : Row}
    (h : List.lookup "visit" l = List.lookup "visit" l') :
    visitBlock (.obj l) r = visitBlock (.obj l') r := by
  unfold visitBlock
  rw [show jMember "visit" (.obj l) = jMember "visit" (.obj l') from by simp [jMember, h],
    show jIndex (.obj l) "visit" = jIndex (.obj l') "visit" from by simp [jIndex, h]]

theorem activityBlock_congr {l l' : List (String × Json)} {r : Row}
    (h : List.lookup "activity" l = List.lookup "activity" l') :
    activityBlock (.obj l) r = activityBlock (.obj l') r := by
  unfold activityBlock
  rw [show jMember "activity" (.obj l) = jMember "activity" (.obj l') from by simp [jMember, h],
    show jIndex (.obj l) "activity" = jIndex (.obj l') "activity" from by simp [jIndex, h]]

theorem copyStep_obj_congr {seg seg' : List (String × Json)} {k outK : String}
    (h : List.lookup k seg = List.lookup k seg') :
    copyStep (.obj seg) k outK = copyStep (.obj seg') k outK := by
  funext r
  unfold copyStep
  rw [show jMember k (.obj seg) = jMember k (.obj seg') from by simp [jMember, h],
    show jIndex (.obj seg) k = jIndex (.obj seg') k from by simp [jIndex, h]]

theorem segActs_agree {seg seg' : List (String × Json)} {r : Row} {a0 : Json}
    {rest rest' : List Json}
    (hx : List.lookup "activities" seg = some (.arr (a0 :: rest)))
    (hx' : List.lookup "activities" seg' = some (.arr (a0 :: rest'))) :
    segActs (.obj seg) r = segActs (.obj seg') r := by
  unfold segActs
  rw [show jMember "activities" (.obj seg) = .ok true from by simp [jMember, hx],
    ok_bind, if_pos rfl,
    show jIndex (.obj seg) "activities" = .ok (.arr (a0 :: rest)) from by simp [jIndex, hx],
    ok_bind, if_pos (show truthy (Json.arr (a0 :: rest)) = true from rfl),
    show jIndexZero (Json.arr (a0 :: rest)) = .ok a0 from rfl, ok_bind,
    show jMember "activities" (.obj seg') = .ok true from by simp [jMember, hx'],
    ok_bind, if_pos rfl,
    show jIndex (.obj seg') "activities" = .ok (.arr (a0 :: rest')) from by simp [jIndex, hx'],
    ok_bind, if_pos (show truthy (Json.arr (a0 :: rest')) = true from rfl),
    show jIndexZero (Json.arr (a0 :: rest')) = .ok a0 from rfl, ok_bind]

theorem segmentBlock_agree {l l' : List (String × Json)} {r : Row}
    {seg seg' : List (String × Json)} {a0 : Json} {rest rest' : List Json}
    (hs : List.lookup "activitySegment" l = some (.obj seg))
    (hs' : List.lookup "activitySegment" l' = some (.obj seg'))
    (hacts : List.lookup "activities" seg = some (.arr (a0 :: rest)))
    (hacts' : List.lookup "activities" seg' = some (.arr (a0 :: rest')))
    (hd : List.lookup "distance" seg = List.lookup "distance" seg')
    (hdu : List.lookup "duration" seg = List.lookup "duration" seg')
    (hat : List.lookup "activityType" seg = List.lookup "activityType" seg')
    (hc : List.lookup "confidence" seg = List.lookup "confidence" seg') :
    segmentBlock (.obj l) r = segmentBlock (.obj l') r := by
  unfold segmentBlock
  rw [show jMember "activitySegment" (.obj l) = .ok true from by simp [jMember, hs],
    ok_bind, if_pos rfl,
    show jIndex (.obj l) "activitySegment" = .ok (.obj seg) from by simp [jIndex, hs],
    ok_bind,
    show jMember "activitySegment" (.obj l') = .ok true from by simp [jMember, hs'],
    ok_bind, if_pos rfl,
    show jIndex (.obj l') "activitySegment" = .ok (.obj seg') from by simp [jIndex, hs'],
    ok_bind,
    show segActs (.obj seg) r = segActs (.obj seg') r from segActs_agree hacts hacts',
    copyStep_obj_congr hd, copyStep_obj_congr hdu, copyStep_obj_congr hat,
    copyStep_obj_congr hc]

theorem process_entry_agree {l l' : List (String × Json)}
    (h1 : List.lookup "startTime" l = List.lookup "startTime" l')
    (h2 : List.lookup "endTime" l = List.lookup "endTime" l')
    (h3 : List.lookup "visit" l = List.lookup "visit" l')
    (h4 : List.lookup "activity" l = List.lookup "activity" l')
    (h5 : ∀ r, segmentBlock (.obj l) r = segmentBlock (.obj l') r) :
    process_location_entry (.obj l) = process_location_entry (.obj l') := by
  unfold process_location_entry
  rw [show pyGet (.obj l) "startTime" = pyGet (.obj l') "startTime" from by simp [pyGet, h1],
    show pyGet (.obj l) "endTime" = pyGet (.obj l') "endTime" from by simp [pyGet, h2],
    show visitBlock (.obj l) = visitBlock (.obj l') from
      funext (fun r => visitBlock_congr h3),
    show activityBlock (.obj l) = activityBlock (.obj l') from
      funext (fun r => activityBlock_congr h4),
    show segmentBlock (.obj l) = segmentBlock (.obj l') from funext h5]

theorem segment_first_values {l seg a0 : List (String × Json)}
    {rest : List Json} {r : Row}
    (hs : List.lookup "activitySegment" l = some (.obj seg))
    (hacts : List.lookup "activities" seg = some (.arr (.obj a0 :: rest)))
    (hok : process_location_entry (.obj l) = .ok r) :
    ∃ q, pyFloatOfJson ((List.lookup "probability" a0).getD (.num 0)) = some q ∧
      List.lookup "activityType" r
        = some (.vjson ((List.lookup "activityType" a0).getD .null)) ∧
      List.lookup "activityConfidence" r = some (.vfloat q) := by
  unfold process_location_entry at hok
  rcases ok_of_bind hok with ⟨s, _, hk1⟩
  rcases ok_of_bind hk1 with ⟨e2, _, hk2⟩
  rcases ok_of_bind hk2 with ⟨r1, _, hk3⟩
  rcases ok_of_bind hk3 with ⟨r2, _, hsegb⟩
  unfold segmentBlock at hsegb
  rw [show jMember "activitySegment" (.obj l) = .ok true from by simp [jMember, hs],
    ok_bind, if_pos rfl,
    show jIndex (.obj l) "activitySegment" = .ok (.obj seg) from by simp [jIndex, hs],
    ok_bind] at hsegb
  rcases ok_of_bind hsegb with ⟨ra, hsa, hrest⟩
  unfold segActs at hsa
  rw [show jMember "activities" (Json.obj seg) = .ok true from by simp [jMember, hacts],
    ok_bind, if_pos rfl,
    show jIndex (.obj seg) "activities" = .ok (.arr (.obj a0 :: rest)) from
      by simp [jIndex, hacts],
    ok_bind,
    if_pos (show truthy (Json.arr (.obj a0 :: rest)) = true from rfl),
    show jIndexZero (Json.arr (.obj a0 :: rest)) = .ok (.obj a0) from rfl, ok_bind,
    show pyGet (Json.obj a0) "activityType"
        = .ok ((List.lookup "activityType" a0).getD .null) from by simp [pyGet],
    ok_bind,
    show pyGetD (Json.obj a0) "probability" (.num 0)
        = .ok ((List.lookup "probability" a0).getD (.num 0)) from by simp [pyGetD],
    ok_bind] at hsa
  rcases ok_of_bind hsa with ⟨q, hq, hfin⟩
  obtain rfl := Except.ok.inj hfin
  refine ⟨q, pyFloat_ok hq, ?_, ?_⟩
  · rcases ok_of_bind hrest with ⟨rb, hrb, hrest⟩
    rcases ok_of_bind hrest with ⟨rc, hrc, hrest⟩
    rcases ok_of_bind hrest with ⟨rd, hrd, hlast⟩
    rw [copyStep_pres (by decide) hlast, copyStep_pres (by decide) hrd,
      copyStep_pres (by decide) hrc, copyStep_pres (by decide) hrb,
      lookup_rset_ne (by decide), lookup_rset_self]
  · rcases ok_of_bind hrest with ⟨rb, hrb, hrest⟩
    rcases ok_of_bind hrest with ⟨rc, hrc, hrest⟩
    rcases ok_of_bind hrest with ⟨rd, hrd, hlast⟩
    rw [copyStep_pres (by decide) hlast, copyStep_pres (by decide) hrd,
      copyStep_pres (by decide) hrc, copyStep_pres (by decide) hrb,
      lookup_rset_self]

/-- The geo pattern as the spec words it: literal prefix `geo:`, an optional
minus sign, digits, an optional decimal fraction, a comma, and the same for
the second number, matching the whole string.  Modelled from the spec's
description (not from the code) for comparison with the code's
`re.match(r'geo:([-\d.]+),([-\d.]+)', ...)`. -/
def specNumber (cs : List Char) : Option (List Char) :=
  let cs1 := match cs with | '-' :: r => r | r => r
  let p := takeDigits cs1
  if p.1.isEmpty then none
  else
    match p.2 with
    | '.' :: r2 =>
      let p2 := takeDigits r2
      if p2.1.isEmpty then none else some p2.2
    | r => some r

/-- Full-string match of the spec's geo pattern (see `specNumber`). -/
def specGeoPattern (s : String) : Bool :=
  match s.data with
  | 'g' :: 'e' :: 'o' :: ':' :: rest =>
    (match specNumber rest with
     | some (',' :: rest2) =>
       (match specNumber rest2 with
        | some [] => true
        | _ => false)
     | _ => false)
  | _ => false

/-- Claim C1 (amended): the timestamp-derivation step uses polars'
`str.to_datetime` with its default `strict=True`, so a row whose source
string fails to parse does not get a null derived value — it makes the whole
conversion raise, aborting the run (uncaught, after the handlers).  Stated
for both the `startTime` and the `endTime` column. -/
theorem C1_amended : ∀ (df : DataFrame) (rec : Row) (s : String),
    rec ∈ df.recs → isDatetimeString s = false →
    ((List.lookup "startTime" rec = some (.vjson (.str s)) → "startTime" ∈ df.cols →
        isErr (deriveTimestamps df) = true)
      ∧ (List.lookup "endTime" rec = some (.vjson (.str s)) → "endTime" ∈ df.cols →
        isErr (deriveTimestamps df) = true)) := by
  intro df rec s hrec hbad
  constructor
  · intro hlk hcol
    exact deriveTimestamps_err_start hcol
      (to_datetime_err_of_bad_cell (cell_mem_colCells hrec hlk) hbad)
  · intro hlk hcol
    exact deriveTimestamps_err_end hcol
      (to_datetime_err_of_bad_cell (cell_mem_colCells hrec hlk) hbad)

/-- Claim C1, counterexample to the original claim: a run over one record
whose `startTime` is not a parseable timestamp aborts with an uncaught
conversion error (exit status 1) and writes nothing — the malformed string
neither becomes a null `startTime_dt` nor lets the run finish. -/
theorem C1_counterexample :
    runScript ⟨true, true, .ok [.obj [("startTime", .str "not-a-timestamp")]], true⟩
      = ⟨some .computeError, 1, none⟩ := rfl

/-- Claim C1, witness for the amended theorem at a concrete table. -/
theorem C1_witness :
    isErr (deriveTimestamps ⟨["startTime"], [[("startTime", Val.vjson (.str "garbage"))]]⟩)
      = true :=
  (C1_amended ⟨["startTime"], [[("startTime", Val.vjson (.str "garbage"))]]⟩
    [("startTime", Val.vjson (.str "garbage"))] "garbage"
    (List.mem_cons_self _ _) rfl).1 rfl (List.mem_cons_self _ _)

/-- Claim C2 (amended): for a string `s` in `placeLocation`, `activity.start`
or `activity.end`, lat/lng fields are produced iff the code's regex
`geo:([-\d.]+),([-\d.]+)` prefix-matches `s` (two non-empty maximal runs over
digits/minus/dot separated by a comma) AND both captured runs convert with
Python `float`; the fields then equal those two floats in order.  If the
regex matches but a captured run is not a float literal, the record raises
(`float` ValueError) instead of being skipped; if the regex does not match,
no fields appear and no error is raised. -/
theorem C2_amended : ∀ s : String,
    (∀ g1 g2 a b, geoMatch s = some (g1, g2) →
      pyFloatOfString g1 = some a → pyFloatOfString g2 = some b →
      process_location_entry (visitLocEntry s)
          = .ok (rBase ++ [("latitude", .vfloat a), ("longitude", .vfloat b)])
        ∧ process_location_entry (activityStartEntry s)
          = .ok (rBase ++ [("start_lat", .vfloat a), ("start_lng", .vfloat b)])
        ∧ process_location_entry (activityEndEntry s)
          = .ok (rBase ++ [("end_lat", .vfloat a), ("end_lng", .vfloat b)]))
    ∧ (∀ g1 g2, geoMatch s = some (g1, g2) →
        pyFloatOfString g1 = none ∨ pyFloatOfString g2 = none →
        isErr (process_location_entry (visitLocEntry s)) = true
        ∧ isErr (process_location_entry (activityStartEntry s)) = true
        ∧ isErr (process_location_entry (activityEndEntry s)) = true)
    ∧ (geoMatch s = none →
        process_location_entry (visitLocEntry s) = .ok rBase
        ∧ process_location_entry (activityStartEntry s) = .ok rBase
        ∧ process_location_entry (activityEndEntry s) = .ok rBase) := by
  intro s
  refine ⟨?_, ?_, ?_⟩
  · intro g1 g2 a b hm h1 h2
    refine ⟨?_, ?_, ?_⟩
    · rw [visitLoc_reduce, geoAssign_ok_vals hm h1 h2]
      rfl
    · rw [activityStart_reduce, geoAssign_ok_vals hm h1 h2]
      rfl
    · rw [activityEnd_reduce, geoAssign_ok_vals hm h1 h2]
      rfl
  · intro g1 g2 hm hbad
    refine ⟨?_, ?_, ?_⟩
    · rw [visitLoc_reduce]
      exact geoAssign_err hm hbad
    · rw [activityStart_reduce]
      exact geoAssign_err hm hbad
    · rw [activityEnd_reduce]
      exact geoAssign_err hm hbad
  · intro hm
    refine ⟨?_, ?_, ?_⟩
    · rw [visitLoc_reduce]
      exact geoAssign_no_match hm
    · rw [activityStart_reduce]
      exact geoAssign_no_match hm
    · rw [activityEnd_reduce]
      exact geoAssign_no_match hm

/-- Claim C2, counterexample to the original claim: `"geo:-,-"` does not
match the spec's described pattern (no digits), yet flattening it raises an
error (`float('-')`), contradicting "for every non-matching string no lat/lng
fields appear and no error is raised". -/
theorem C2_counterexample :
    specGeoPattern "geo:-,-" = false
    ∧ isErr (process_location_entry (visitLocEntry "geo:-,-")) = true := ⟨rfl, rfl⟩

/-- Claim C2, witness: the spec's own example string. -/
theorem C2_witness :
    process_location_entry (visitLocEntry "geo:37.422,-122.084")
        = .ok (rBase ++ [("latitude", .vfloat (mkRat 37422 1000)),
            ("longitude", .vfloat (mkRat (-122084) 1000))])
      ∧ process_location_entry (activityStartEntry "geo:37.422,-122.084")
        = .ok (rBase ++ [("start_lat", .vfloat (mkRat 37422 1000)),
            ("start_lng", .vfloat (mkRat (-122084) 1000))])
      ∧ process_location_entry (activityEndEntry "geo:37.422,-122.084")
        = .ok (rBase ++ [("end_lat", .vfloat (mkRat 37422 1000)),
            ("end_lng", .vfloat (mkRat (-122084) 1000))]) :=
  (C2_amended "geo:37.422,-122.084").1 "37.422" "-122.084" (mkRat 37422 1000)
    (mkRat (-122084) 1000) rfl rfl rfl

/-- Claim C3 (confirmed): a record whose visit probability,
`activity.distanceMeters`, `activity.topCandidate.probability` or first
activity probability cannot be converted to a float makes the whole run
terminate with the DecodeFailure-class report ("Error processing JSON"),
before any output is written; the coercion failure propagates out of the
per-record flattener and is not swallowed. -/
theorem C3_numeric_failure : ∀ (env : Env) (entries : List Json) (e : Json),
    env.libsOk = true → env.fileOk = true → env.decoded = .ok entries →
    e ∈ entries → badNumeric e →
    runScript env = ⟨some .decodeFailure, 0, none⟩ := by
  intro env entries e hl hf hd hmem hb
  exact runScript_decodeFailure hl hf hd (isErr_mapM_of_mem hmem (perr_of_badNumeric hb))

/-- Claim C3, witness: one record whose `activity.distanceMeters` is a
non-numeric string aborts the run with a DecodeFailure report and no output. -/
theorem C3_witness :
    runScript ⟨true, true,
        .ok [.obj [("activity", .obj [("distanceMeters", .str "oops")])]], true⟩
      = ⟨some .decodeFailure, 0, none⟩ :=
  C3_numeric_failure _ _ (.obj [("activity", .obj [("distanceMeters", .str "oops")])])
    rfl rfl rfl (List.mem_cons_self _ _)
    (Or.inr (Or.inl ⟨[("activity", .obj [("distanceMeters", .str "oops")])],
      [("distanceMeters", .str "oops")], .str "oops", rfl, rfl, rfl, rfl⟩))

/-- Claim C4 (amended): for a record with none of `visit`/`activity`/
`activitySegment`, the flattened row consists of exactly the two fields
`startTime` and `endTime` — but each key is always present, holding the raw
value when the record has it and null (`None`) when it does not, rather than
being absent. -/
theorem C4_amended : ∀ l : List (String × Json),
    List.lookup "visit" l = none → List.lookup "activity" l = none →
    List.lookup "activitySegment" l = none →
    process_location_entry (.obj l)
      = .ok [("startTime", .vjson ((List.lookup "startTime" l).getD .null)),
             ("endTime", .vjson ((List.lookup "endTime" l).getD .null))] :=
  fun _ hv ha hs => flatten_no_sections hv ha hs

/-- Claim C4, counterexample to the original claim: the empty record has no
`startTime`, yet its flattened row still contains the `startTime` field
(with a null value) — the field is not "present only when in the raw
record". -/
theorem C4_counterexample :
    process_location_entry (.obj [])
        = .ok [("startTime", .vjson .null), ("endTime", .vjson .null)]
      ∧ "startTime" ∈ rowKeys [("startTime", Val.vjson .null), ("endTime", Val.vjson .null)]
      ∧ List.lookup "startTime" ([] : List (String × Json)) = none :=
  ⟨rfl, by simp [rowKeys], rfl⟩

/-- Claim C4, witness for the amended theorem. -/
theorem C4_witness :
    process_location_entry (.obj [("startTime", Json.str "2024-01-02T03:04:05Z")])
      = .ok [("startTime",
            .vjson ((List.lookup "startTime"
              [("startTime", Json.str "2024-01-02T03:04:05Z")]).getD .null)),
          ("endTime",
            .vjson ((List.lookup "endTime"
              [("startTime", Json.str "2024-01-02T03:04:05Z")]).getD .null))] :=
  C4_amended [("startTime", Json.str "2024-01-02T03:04:05Z")] rfl rfl rfl

/-- Claim C5 (confirmed): for a record whose `activitySegment` has a
non-empty `activities` list, the flattener copies only the first element —
its `activityType` (via `.get`, null when absent) into `activityType`, and
`float` of its `probability` (defaulting to `0` when absent) into
`activityConfidence`; and changing only the tail of the `activities` list
never changes the flattened row. -/
theorem C5_first_activity :
    (∀ (l seg a0 : List (String × Json)) (rest : List Json) (r : Row),
      List.lookup "activitySegment" l = some (.obj seg) →
      List.lookup "activities" seg = some (.arr (.obj a0 :: rest)) →
      process_location_entry (.obj l) = .ok r →
      ∃ q, pyFloatOfJson ((List.lookup "probability" a0).getD (.num 0)) = some q ∧
        List.lookup "activityType" r
          = some (.vjson ((List.lookup "activityType" a0).getD .null)) ∧
        List.lookup "activityConfidence" r = some (.vfloat q))
    ∧ (∀ (l l' seg seg' : List (String × Json)) (a0 : Json) (rest rest' : List Json),
      List.lookup "startTime" l = List.lookup "startTime" l' →
      List.lookup "endTime" l = List.lookup "endTime" l' →
      List.lookup "visit" l = List.lookup "visit" l' →
      List.lookup "activity" l = List.lookup "activity" l' →
      List.lookup "activitySegment" l = some (.obj seg) →
      List.lookup "activitySegment" l' = some (.obj seg') →
      List.lookup "activities" seg = some (.arr (a0 :: rest)) →
      List.lookup "activities" seg' = some (.arr (a0 :: rest')) →
      List.lookup "distance" seg = List.lookup "distance" seg' →
      List.lookup "duration" seg = List.lookup "duration" seg' →
      List.lookup "activityType" seg = List.lookup "activityType" seg' →
      List.lookup "confidence" seg = List.lookup "confidence" seg' →
      process_location_entry (.obj l) = process_location_entry (.obj l')) := by
  constructor
  · intro l seg a0 rest r hs hacts hok
    exact segment_first_values hs hacts hok
  · intro l l' seg seg' a0 rest rest' h1 h2 h3 h4 hs hs' hacts hacts' hd hdu hat hc
    exact process_entry_agree h1 h2 h3 h4
      (fun r => segmentBlock_agree hs hs' hacts hacts' hd hdu hat hc)

/-- Claim C5, witness: the spec's example, with a second list element that is
ignored; `probability = "0.9"` becomes the float `9/10`. -/
theorem C5_witness :
    ∃ q, pyFloatOfJson ((List.lookup "probability"
          [("activityType", Json.str "WALKING"), ("probability", Json.str "0.9")]).getD
            (.num 0)) = some q ∧
      List.lookup "activityType"
          [("startTime", Val.vjson .null), ("endTime", Val.vjson .null),
           ("activityType", Val.vjson (.str "WALKING")),
           ("activityConfidence", Val.vfloat (mkRat 9 10))]
        = some (.vjson ((List.lookup "activityType"
            [("activityType", Json.str "WALKING"),
             ("probability", Json.str "0.9")]).getD .null)) ∧
      List.lookup "activityConfidence"
          [("startTime", Val.vjson .null), ("endTime", Val.vjson .null),
           ("activityType", Val.vjson (.str "WALKING")),
           ("activityConfidence", Val.vfloat (mkRat 9 10))]
        = some (.vfloat q) := by
  have h := C5_first_activity.1
    [("activitySegment", Json.obj [("activities", Json.arr
      [.obj [("activityType", Json.str "WALKING"), ("probability", Json.str "0.9")],
       .obj [("activityType", Json.str "RUNNING")]])])]
    [("activities", Json.arr
      [.obj [("activityType", Json.str "WALKING"), ("probability", Json.str "0.9")],
       .obj [("activityType", Json.str "RUNNING")]])]
    [("activityType", Json.str "WALKING"), ("probability", Json.str "0.9")]
    [.obj [("activityType", Json.str "RUNNING")]]
    [("startTime", Val.vjson .null), ("endTime", Val.vjson .null),
     ("activityType", Val.vjson (.str "WALKING")),
     ("activityConfidence", Val.vfloat (mkRat 9 10))]
    rfl rfl rfl
  exact h

/-- Claim C6 (confirmed): a run whose input decodes to zero records (hence
zero flattened rows — the flattener emits exactly one row per record)
terminates with the EmptyResult-class report ("No location data found") at
the empty-DataFrame check, before the derive and write stages, and produces
no output file. -/
theorem C6_empty_result : ∀ env : Env,
    env.libsOk = true → env.fileOk = true → env.decoded = .ok [] →
    runScript env = ⟨some .emptyResult, 0, none⟩ := by
  intro env hl hf hd
  simp [runScript, hl, hf, hd,
    show processAll ([] : List Json) = Except.ok [] from rfl]

/-- Claim C6, witness. -/
theorem C6_witness :
    runScript ⟨true, true, .ok [], true⟩ = ⟨some .emptyResult, 0, none⟩ :=
  C6_empty_result ⟨true, true, .ok [], true⟩ rfl rfl rfl

/-- Claim C7 (amended): the table built by `pl.from_records` has column set
equal to the union of the keys of the first `infer_schema_length = 100` rows
(in first-appearance order); a row lacking a schema key reads as null in
that column; but a key first appearing after the 100-row inference window is
silently dropped rather than becoming a column. -/
theorem C7_amended : ∀ rows : List Row, rows ≠ [] →
    (∀ k, k ∈ (from_records rows).cols ↔ ∃ r ∈ rows.take inferWindow, k ∈ rowKeys r)
    ∧ (∀ (k : String) (i : ℕ) (r : Row), (from_records rows).recs[i]? = some r →
        List.lookup k r = none →
        (colCells (from_records rows) k)[i]? = some none) := by
  intro rows hne
  constructor
  · intro k
    exact mem_inferCols
  · intro k i r hget hlk
    unfold colCells
    rw [List.getElem?_map, hget]
    simp [hlk]

set_option maxRecDepth 4000 in
/-- Claim C7, counterexample to the original claim: in a 101-row sequence
whose key `b` first appears in row 101, the built table has no `b` column at
all — the column set is not the union of keys across all rows. -/
theorem C7_counterexample :
    ("b" ∉ (from_records (List.replicate 100 [("a", Val.vjson (.str "x"))]
        ++ [[("a", Val.vjson (.str "x")), ("b", Val.vjson (.str "y"))]])).cols)
    ∧ (∃ r ∈ List.replicate 100 [("a", Val.vjson (Json.str "x"))]
        ++ [[("a", Val.vjson (Json.str "x")), ("b", Val.vjson (Json.str "y"))]],
        "b" ∈ rowKeys r) := by
  constructor
  · decide
  · exact ⟨[("a", Val.vjson (Json.str "x")), ("b", Val.vjson (Json.str "y"))],
      List.mem_append.mpr (Or.inr (List.mem_singleton.mpr rfl)), by decide⟩

/-- Claim C7, witness for the amended theorem at a one-row table. -/
theorem C7_witness :
    "a" ∈ (from_records [[("a", Val.vjson .null)]]).cols ↔
      ∃ r ∈ ([[("a", Val.vjson .null)]] : List Row).take inferWindow, "a" ∈ rowKeys r :=
  (C7_amended [[("a", Val.vjson .null)]] (List.cons_ne_nil _ _)).1 "a"

/-- Claim C8 (amended): every stage failure prints a diagnostic (the handled
categories print their message; the uncaught categories print a traceback)
and terminates without continuing to later stages and without writing any
output; however the handled failures (missing input file, JSON processing
exception, zero rows, write failure) terminate via a bare `exit()` or by
falling off the end of the script, i.e. with exit status 0, not nonzero —
only the failures outside the handlers (a missing library at import time, a
timestamp-conversion error) abort with a nonzero status. -/
theorem C8_amended : ∀ (env : Env) (k : ErrKind),
    (runScript env).report = some k →
    (runScript env).written = none ∧
    (runScript env).exitCode
      = (match k with | .missingDep => 1 | .computeError => 1 | _ => 0) := by
  intro env k h
  rcases env with ⟨libs, file, dec, wr⟩
  cases libs with
  | false =>
    have hrs : runScript ⟨false, file, dec, wr⟩ = ⟨some .missingDep, 1, none⟩ := rfl
    rw [hrs] at h ⊢
    obtain rfl := Option.some.inj h
    exact ⟨rfl, rfl⟩
  | true =>
    cases file with
    | false =>
      have hrs : runScript ⟨true, false, dec, wr⟩ = ⟨some .inputNotFound, 0, none⟩ := rfl
      rw [hrs] at h ⊢
      obtain rfl := Option.some.inj h
      exact ⟨rfl, rfl⟩
    | true =>
      cases dec with
      | error msg =>
        have hrs : runScript ⟨true, true, .error msg, wr⟩
            = ⟨some .decodeFailure, 0, none⟩ := rfl
        rw [hrs] at h ⊢
        obtain rfl := Option.some.inj h
        exact ⟨rfl, rfl⟩
      | ok entries =>
        cases hpa : processAll entries with
        | error msg =>
          have hrs : runScript ⟨true, true, .ok entries, wr⟩
              = ⟨some .decodeFailure, 0, none⟩ := by
            simp [runScript, hpa]
          rw [hrs] at h ⊢
          obtain rfl := Option.some.inj h
          exact ⟨rfl, rfl⟩
        | ok rows =>
          cases rows with
          | nil =>
            have hrs : runScript ⟨true, true, .ok entries, wr⟩
                = ⟨some .emptyResult, 0, none⟩ := by
              simp [runScript, hpa]
            rw [hrs] at h ⊢
            obtain rfl := Option.some.inj h
            exact ⟨rfl, rfl⟩
          | cons r0 rest =>
            cases hdt : deriveTimestamps (from_records (r0 :: rest)) with
            | error msg =>
              have hrs : runScript ⟨true, true, .ok entries, wr⟩
                  = ⟨some .computeError, 1, none⟩ := by
                simp [runScript, hpa, hdt]
              rw [hrs] at h ⊢
              obtain rfl := Option.some.inj h
              exact ⟨rfl, rfl⟩
            | ok df =>
              cases wr with
              | false =>
                have hrs : runScript ⟨true, true, .ok entries, false⟩
                    = ⟨some .writeFailure, 0, none⟩ := by
                  simp [runScript, hpa, hdt]
                rw [hrs] at h ⊢
                obtain rfl := Option.some.inj h
                exact ⟨rfl, rfl⟩
              | true =>
                have hrs : runScript ⟨true, true, .ok entries, true⟩
                    = ⟨none, 0, some df⟩ := by
                  simp [runScript, hpa, hdt]
                rw [hrs] at h
                exact Option.noConfusion h

/-- Claim C8, counterexample to the original claim: the zero-rows failure
prints its diagnostic and stops, but the process exits with status 0 (bare
`exit()`), not with nonzero exit-code semantics. -/
theorem C8_counterexample :
    (runScript ⟨true, true, .ok [], true⟩).report = some .emptyResult
    ∧ (runScript ⟨true, true, .ok [], true⟩).exitCode = 0 := ⟨rfl, rfl⟩

/-- Claim C8, witness for the amended theorem at the zero-rows failure. -/
theorem C8_witness :
    (runScript ⟨true, true, .ok [], true⟩).written = none ∧
    (runScript ⟨true, true, .ok [], true⟩).exitCode
      = (match ErrKind.emptyResult with
          | .missingDep => 1 | .computeError => 1 | _ => 0) :=
  C8_amended ⟨true, true, .ok [], true⟩ .emptyResult rfl

/-- Claim C9 (confirmed): every row the flattener produces contains the keys
`startTime` and `endTime` (null-valued when the raw record lacks them), so
for a non-empty run both columns exist in the assembled table — they are
within any schema-inference window — and whenever the derive step completes,
the resulting table has both `startTime_dt` and `endTime_dt` columns. -/
theorem C9_ts_invariant :
    (∀ (e : Json) (r : Row), process_location_entry e = .ok r →
      ∃ l, e = .obj l ∧
        List.lookup "startTime" r
          = some (.vjson ((List.lookup "startTime" l).getD .null)) ∧
        List.lookup "endTime" r
          = some (.vjson ((List.lookup "endTime" l).getD .null)))
    ∧ (∀ (entries : List Json) (rows : List Row),
        processAll entries = .ok rows → rows ≠ [] →
        "startTime" ∈ (from_records rows).cols ∧ "endTime" ∈ (from_records rows).cols)
    ∧ (∀ (df df' : DataFrame), "startTime" ∈ df.cols → "endTime" ∈ df.cols →
        deriveTimestamps df = .ok df' →
        "startTime_dt" ∈ df'.cols ∧ "endTime_dt" ∈ df'.cols) := by
  refine ⟨?_, ?_, ?_⟩
  · intro e r hok
    rcases process_ok_obj hok with ⟨l, rfl⟩
    exact ⟨l, rfl, process_ok_ts hok⟩
  · intro entries rows hall hne
    constructor
    · apply from_records_col_of_all hne
      intro r hr
      rcases mapM_ok_mem hall r hr with ⟨e, _, hok⟩
      rcases process_ok_obj hok with ⟨l, rfl⟩
      exact mem_rowKeys_of_lookup (process_ok_ts hok).1
    · apply from_records_col_of_all hne
      intro r hr
      rcases mapM_ok_mem hall r hr with ⟨e, _, hok⟩
      rcases process_ok_obj hok with ⟨l, rfl⟩
      exact mem_rowKeys_of_lookup (process_ok_ts hok).2
  · intro df df' h1 h2 h
    exact deriveTimestamps_ok_cols h1 h2 h

/-- Claim C9, witness: the row-shape part applied to a concrete record that
has a `startTime` but no `endTime`. -/
theorem C9_witness :
    ∃ l, (Json.obj [("startTime", Json.str "2024-01-02T03:04:05Z")]) = Json.obj l ∧
      List.lookup "startTime"
          [("startTime", Val.vjson (.str "2024-01-02T03:04:05Z")),
           ("endTime", Val.vjson .null)]
        = some (.vjson ((List.lookup "startTime" l).getD .null)) ∧
      List.lookup "endTime"
          [("startTime", Val.vjson (.str "2024-01-02T03:04:05Z")),
           ("endTime", Val.vjson .null)]
        = some (.vjson ((List.lookup "endTime" l).getD .null)) :=
  C9_ts_invariant.1 (Json.obj [("startTime", Json.str "2024-01-02T03:04:05Z")])
    [("startTime", Val.vjson (.str "2024-01-02T03:04:05Z")),
     ("endTime", Val.vjson .null)] rfl

/-- Claim C10 (amended): the geo matcher anchors only at the start, so a
string `geo:` ++ run1 ++ `,` ++ run2 ++ trailing — with run1, run2 non-empty
runs over digits/minus/dot, run2 maximal (the trailing text does not start
with such a character), and both runs valid Python float literals — still
yields lat/lng fields parsed from the two runs, the trailing text ignored.
(Without the float-literal condition the record errors, and without
maximality the second captured run absorbs the leading trailing characters.) -/
theorem C10_amended : ∀ (r1 r2 t : String) (a b : ℚ),
    r1 ≠ "" → r2 ≠ "" →
    (∀ c ∈ r1.data, geoChar c = true) → (∀ c ∈ r2.data, geoChar c = true) →
    (∀ c, t.data.head? = some c → geoChar c = false) →
    pyFloatOfString r1 = some a → pyFloatOfString r2 = some b →
    process_location_entry (visitLocEntry ("geo:" ++ r1 ++ "," ++ r2 ++ t))
      = .ok (rBase ++ [("latitude", .vfloat a), ("longitude", .vfloat b)]) := by
  intro r1 r2 t a b h1 h2 ha1 ha2 ht hf1 hf2
  rw [visitLoc_reduce, geoAssign_ok_vals (geoMatch_decomp h1 h2 ha1 ha2 ht) hf1 hf2]
  rfl

/-- Claim C10, counterexample to the original claim: `"geo:1.2.3,4 x"`
decomposes as `geo:` ++ `1.2.3` ++ `,` ++ `4` ++ ` x` with both runs
non-empty over the allowed characters, yet the flattener raises
(`float("1.2.3")` fails) instead of producing lat/lng fields. -/
theorem C10_counterexample :
    ("geo:1.2.3,4 x" = "geo:" ++ "1.2.3" ++ "," ++ "4" ++ " x")
    ∧ (∀ c ∈ ("1.2.3" : String).data, geoChar c = true)
    ∧ (∀ c ∈ ("4" : String).data, geoChar c = true)
    ∧ isErr (process_location_entry (visitLocEntry "geo:1.2.3,4 x")) = true :=
  ⟨rfl, by decide, by decide, rfl⟩

/-- Claim C10, witness: trailing text after the two runs is ignored. -/
theorem C10_witness :
    process_location_entry (visitLocEntry ("geo:" ++ "37.4" ++ "," ++ "-122.0" ++ " extra"))
      = .ok (rBase ++ [("latitude", .vfloat (mkRat 374 10)),
          ("longitude", .vfloat (mkRat (-1220) 10))]) :=
  C10_amended "37.4" "-122.0" " extra" (mkRat 374 10) (mkRat (-1220) 10)
    (by decide) (by decide) (by decide) (by decide)
    (fun c hc => by
      rw [show (" extra" : String).data.head? = some ' ' from rfl] at hc
      obtain rfl : ' ' = c := Option.some.inj hc
      rfl)
    rfl rfl

end LH
